import Mathlib

/-!
Shallow embedding of the orbit-mapper propagation core
(`src/orbit/EphemerisPropagator.cpp`, `src/orbit/Sgp4Propagator.cpp`,
`src/orbit/Kepler.cpp`, `src/orbit/OrbitSampler.cpp`) and proofs about it.

Modelling conventions:
* C++ `double` values that only flow through ring/field operations and
  comparisons (the ephemeris sample store, interpolation, unit conversion,
  TLE checksum arithmetic) are modelled as exact rationals `ℚ`, keeping the
  model computable and decidable.
* `double` values that flow through `sqrt`, trigonometric functions and
  `acos`/`atan2` (orbital-element extraction, the Kepler solver, the orbit
  sampler) are modelled as real numbers `ℝ`; the decimal constants for pi
  and two-pi in the source denote the corresponding real constants.
* `std::isfinite` checks are identically true in the real model and are
  dropped where the guarded quantity is a real number built from finite
  inputs by total operations.
* `std::chrono::system_clock::time_point` is modelled as a rational number
  of seconds; a zero/default timestamp is the rational `0`.
* External components (libsgp4 parsing/propagation, `gmtime_r`) are not part
  of the repository; they enter the model as explicit function parameters
  ("hooks"), while all control flow around them is translated from the
  source.  C++ exceptions of those hooks are modelled with `Except`/`Option`.
* Fallible repository functions returning `bool` plus out-parameters are
  modelled as `Option` of the out-parameter record.
-/

namespace OrbitMapper

/-! ## Rational 3-vectors and render states (EphemerisPropagator world) -/

/-- 3-component vector with exact rational entries (models `std::array<double,3>`
where only field operations occur). -/
structure V3Q where
  x : ℚ
  y : ℚ
  z : ℚ
deriving DecidableEq, Repr

/-- Model of `EciState` (Propagator.h): position and velocity triples. -/
structure EciStateQ where
  position : V3Q
  velocity : V3Q
deriving DecidableEq, Repr

/-- The value-initialised (all-zero) `EciState{}`. -/
def zeroEciStateQ : EciStateQ :=
  { position := ⟨0, 0, 0⟩, velocity := ⟨0, 0, 0⟩ }

/-- Model of `EphemerisSample` (EphemerisPropagator.h): timestamp (seconds),
position (km), velocity (km/s), optional covariance upper triangle.
The covariance values are carried but never read by the modelled code
(only the flag is). -/
structure EphemerisSample where
  t : ℚ
  positionKm : V3Q
  velocityKmPerS : V3Q
  hasCovarianceUpper : Bool
  covarianceUpper : List ℚ
deriving DecidableEq, Repr

instance : Inhabited EphemerisSample :=
  ⟨{ t := 0, positionKm := ⟨0, 0, 0⟩, velocityKmPerS := ⟨0, 0, 0⟩,
     hasCovarianceUpper := false, covarianceUpper := [] }⟩

/-- `kEarthRadiusKm = 6378.137` as a rational (EphemerisPropagator.cpp:16). -/
def kEarthRadiusKmQ : ℚ := 6378.137

/-- Model of `EphemerisPropagator::toRenderState` (EphemerisPropagator.cpp:465-480):
ECI -> render axis remap `(x,y,z) -> (x,z,-y)` combined with km -> Earth-radii
scaling, applied to both position and velocity. -/
def toRenderState (s : EphemerisSample) : EciStateQ :=
  { position := ⟨s.positionKm.x / kEarthRadiusKmQ,
                 s.positionKm.z / kEarthRadiusKmQ,
                 -s.positionKm.y / kEarthRadiusKmQ⟩,
    velocity := ⟨s.velocityKmPerS.x / kEarthRadiusKmQ,
                 s.velocityKmPerS.z / kEarthRadiusKmQ,
                 -s.velocityKmPerS.y / kEarthRadiusKmQ⟩ }

/-- `std::clamp(v, lo, hi)`: `lo` if `v < lo`, else `hi` if `hi < v`, else `v`. -/
def clampQ (v lo hi : ℚ) : ℚ :=
  if v < lo then lo else if hi < v then hi else v

/-- The sample built inside `EphemerisPropagator::lerp`: timestamp of `a`,
position and velocity interpolated component-wise by `u`
(EphemerisPropagator.cpp:486-491); the unset fields are default-initialised. -/
def lerpSampleAt (a b : EphemerisSample) (u : ℚ) : EphemerisSample :=
  { t := a.t
    positionKm := ⟨a.positionKm.x + u * (b.positionKm.x - a.positionKm.x),
                   a.positionKm.y + u * (b.positionKm.y - a.positionKm.y),
                   a.positionKm.z + u * (b.positionKm.z - a.positionKm.z)⟩
    velocityKmPerS := ⟨a.velocityKmPerS.x + u * (b.velocityKmPerS.x - a.velocityKmPerS.x),
                       a.velocityKmPerS.y + u * (b.velocityKmPerS.y - a.velocityKmPerS.y),
                       a.velocityKmPerS.z + u * (b.velocityKmPerS.z - a.velocityKmPerS.z)⟩
    hasCovarianceUpper := false
    covarianceUpper := [] }

/-- Model of `EphemerisPropagator::lerp` (EphemerisPropagator.cpp:482-493):
clamp the blend factor to `[0,1]`, interpolate position and velocity
component-wise in km, then convert via `toRenderState`. -/
def lerpSamples (a b : EphemerisSample) (alpha : ℚ) : EciStateQ :=
  toRenderState (lerpSampleAt a b (clampQ alpha 0 1))

/-- Index returned by `std::lower_bound(samples.begin(), samples.end(), t, s.t < t)`
on a list sorted ascending by `t`: the first index whose timestamp is not
less than `t` (equals `length` when every timestamp is less). -/
def lowerBoundIdx (l : List EphemerisSample) (t : ℚ) : ℕ :=
  (l.takeWhile (fun s => decide (s.t < t))).length

/-- Model of the nearest-sample index choice in `EphemerisPropagator::propagate`
(EphemerisPropagator.cpp:506-523): `lower_bound`, begin/end special cases, and
`da <= db` comparison of absolute time differences against the bracketing pair. -/
def chooseNearestIdx (l : List EphemerisSample) (t : ℚ) : ℕ :=
  if lowerBoundIdx l t = 0 then 0
  else if lowerBoundIdx l t = l.length then l.length - 1
  else
    if (if (l.getD (lowerBoundIdx l t - 1) default).t ≤ t
          then t - (l.getD (lowerBoundIdx l t - 1) default).t
          else (l.getD (lowerBoundIdx l t - 1) default).t - t)
        ≤ (if (l.getD (lowerBoundIdx l t) default).t ≤ t
          then t - (l.getD (lowerBoundIdx l t) default).t
          else (l.getD (lowerBoundIdx l t) default).t - t)
    then lowerBoundIdx l t - 1
    else lowerBoundIdx l t

/-- Model of the tail of `EphemerisPropagator::propagate`
(EphemerisPropagator.cpp:530-562): single-sample passthrough, clamping at the
ends, binary search for the bracketing pair, and linear interpolation.
`getD` with the default sample stands for iterator dereference; every access
is guarded in range exactly as in the source. -/
def interpPart (l : List EphemerisSample) (t : ℚ) : EciStateQ :=
  if l.length = 1 then toRenderState (l.headD default)
  else if t ≤ (l.headD default).t then toRenderState (l.headD default)
  else if (l.getLastD default).t ≤ t then toRenderState (l.getLastD default)
  else
    let i := lowerBoundIdx l t
    if i = 0 then toRenderState (l.getD 0 default)
    else
      let b := l.getD i default
      let a := l.getD (i - 1) default
      let dt := b.t - a.t
      if dt ≤ 0 then toRenderState a
      else lerpSamples a b ((t - a.t) / dt)

/-- Observable interface of an internally synthesised `Sgp4Propagator` held by
an `EphemerisPropagator` (an external object from the ephemeris code's point
of view): its `propagate` and its `tryGetOrbitalPeriodSeconds` results. -/
structure Sgp4Iface where
  propagateAt : ℚ → EciStateQ
  periodSeconds : Option ℚ

/-- State of a constructed `EphemerisPropagator` (EphemerisPropagator.h):
the retained sample vector, the optional single-sample synthesised SGP4
propagator, the per-sample SGP4 propagator array, and the optional extracted
Keplerian elements (the latter lives in the real-number world and is typed
below; here we only need its presence, so it is `Option Unit`-like via an
index into `Option elemsT`). -/
structure EphState (elemsT : Type) where
  samples : List EphemerisSample
  sgp4 : Option Sgp4Iface
  sgp4BySample : List (Option Sgp4Iface)
  keplerianElements : Option elemsT

/-- Model of `EphemerisPropagator::propagate` (EphemerisPropagator.cpp:495-562).
`getD idx none` models `idx < sgp4BySample_.size() && sgp4BySample_[idx]`
(out-of-range reads as an absent propagator). -/
def ephPropagate {elemsT : Type} (st : EphState elemsT) (t : ℚ) : EciStateQ :=
  if st.samples = [] then zeroEciStateQ
  else
    match st.sgp4 with
    | some p => p.propagateAt t
    | none =>
      if !st.sgp4BySample.isEmpty && st.sgp4BySample.length == st.samples.length then
        match st.sgp4BySample.getD (chooseNearestIdx st.samples t) none with
        | some p => p.propagateAt t
        | none => interpPart st.samples t
      else interpPart st.samples t

/-- Model of `EphemerisPropagator::tryGetOrbitalPeriodSeconds`
(EphemerisPropagator.cpp:564-575): delegate to the single-sample SGP4 if
present, else take the first per-sample propagator that reports a period. -/
def ephTryGetOrbitalPeriodSeconds {elemsT : Type} (st : EphState elemsT) : Option ℚ :=
  match st.sgp4 with
  | some p => p.periodSeconds
  | none => st.sgp4BySample.findSome? (fun o => o.bind (fun p => p.periodSeconds))

/-- Model of `EphemerisPropagator::isEpochStateSet` (EphemerisPropagator.cpp:577-590). -/
def ephIsEpochStateSet {elemsT : Type} (st : EphState elemsT) : Bool :=
  if st.samples = [] then false
  else if st.sgp4.isSome || !st.sgp4BySample.isEmpty then true
  else st.samples.any (fun s => s.hasCovarianceUpper)

/-- Model of `EphemerisPropagator::tryGetKeplerianElements`
(EphemerisPropagator.cpp:592-599). -/
def ephTryGetKeplerianElements {elemsT : Type} (st : EphState elemsT) : Option elemsT :=
  st.keplerianElements

/-- Ascending-by-time check (the postcondition of `std::sort` with comparator
`a.t < b.t`): each adjacent pair satisfies `¬ (next.t < prev.t)`. -/
def ascByTimeB : List EphemerisSample → Bool
  | [] => true
  | [_] => true
  | a :: b :: rest => (decide (a.t ≤ b.t)) && ascByTimeB (b :: rest)

/-- The guarantee `std::sort` gives for the comparator `a.t < b.t`: the output
is a permutation of the input that is ascending by time.  The order of
equal-time elements is NOT constrained (std::sort is not stable). -/
def stdSortContractOK (inp out : List EphemerisSample) : Prop :=
  out.Perm inp ∧ ascByTimeB out = true

/-- Strictly-ascending timestamps (pairwise `<`): no duplicate times. -/
def strictlyTimeSorted (l : List EphemerisSample) : Prop :=
  l.Pairwise (fun a b => a.t < b.t)

/-- Non-strict ascending timestamps (pairwise `≤`). -/
def timeSorted (l : List EphemerisSample) : Prop :=
  l.Pairwise (fun a b => a.t ≤ b.t)

/-- Absolute time difference between a query time and the sample at index `j`. -/
def absTimeDiff (l : List EphemerisSample) (t : ℚ) (j : ℕ) : ℚ :=
  |t - (l.getD j default).t|

/-- `i` is a sample index nearest to `t` by absolute time difference, with
ties broken toward the earlier index (the specification's wording of the
per-sample selection rule). -/
def IsNearestIdx (l : List EphemerisSample) (t : ℚ) (i : ℕ) : Prop :=
  i < l.length ∧ ∀ j, j < l.length →
    absTimeDiff l t i < absTimeDiff l t j ∨
      (absTimeDiff l t i = absTimeDiff l t j ∧ i ≤ j)

/-! ## TLE text utilities (EphemerisPropagator.cpp anonymous namespace) -/

/-- Model of `tleChecksum` (EphemerisPropagator.cpp:28-39): sum of the numeric
digit characters plus one per minus sign, modulo 10. -/
def tleChecksum (l : List Char) : ℕ :=
  (l.foldl
    (fun sum c =>
      if '0' ≤ c ∧ c ≤ '9' then sum + (c.toNat - '0'.toNat)
      else if c = '-' then sum + 1
      else sum)
    0) % 10

/-- The checksum digit character appended by `finalizeTleLine`. -/
def checksumChar (l : List Char) : Char :=
  Char.ofNat ('0'.toNat + tleChecksum l)

/-- The padding/truncation step of `finalizeTleLine`
(EphemerisPropagator.cpp:44-48): pad with spaces below 68 characters, else
resize down to 68 (`take 68` covers both the `> 68` resize and the
already-68 case). -/
def tleLinePad68 (l : List Char) : List Char :=
  if l.length < 68 then l ++ List.replicate (68 - l.length) ' ' else l.take 68

/-- Model of `finalizeTleLine` (EphemerisPropagator.cpp:41-52): adjust to
exactly 68 characters, then append the checksum digit. -/
def finalizeTleLine (l : List Char) : List Char :=
  tleLinePad68 l ++ [checksumChar (tleLinePad68 l)]

/-- Decidable check that a TLE line is 69 characters long and ends in the
checksum of its first 68 characters. -/
def tleLineOkB (l : List Char) : Bool :=
  (l.length == 69) && (l.getLast? == some (checksumChar (l.take 68)))

/-- Decimal digits of a natural number, most significant first. -/
def natDigitChars (n : ℕ) : List Char :=
  Nat.toDigits 10 n

/-- Left-pad with a fill character to a given width (`std::setw`/`setfill`
on a right-justified field; fields wider than `w` are not truncated). -/
def padLeftC (fill : Char) (w : ℕ) (l : List Char) : List Char :=
  List.replicate (w - l.length) fill ++ l

/-- Model of `tleEpochFromTimePoint` (EphemerisPropagator.cpp:54-123) after the
`gmtime_r` decomposition (external libc):  inputs are the two-digit year, the
1-based day of year, and the fractional day `dayFrac ∈ [0,1)`.  Rounds the
fraction to 8 digits (`llround`, half away from zero; the argument is
non-negative here so this is floor of `x + 1/2`), carries rounding overflow
into the day of year, and formats `YYDDD.FFFFFFFF`; fails unless the result
is exactly 14 characters. -/
def tleEpochFromFields (year2 doy : ℕ) (dayFrac : ℚ) : Option (List Char) :=
  if 0 ≤ dayFrac ∧ dayFrac < 1 then
    let fracScaled : ℤ := ⌊dayFrac * 100000000 + 1/2⌋
    let rolled : Bool := fracScaled ≥ 100000000
    let fracScaledClamped : ℤ := if rolled then fracScaled - 100000000 else fracScaled
    let doyFinal : ℕ := if rolled then doy + 1 else doy
    let out :=
      padLeftC '0' 2 (natDigitChars year2) ++
      padLeftC '0' 3 (natDigitChars doyFinal) ++
      ['.'] ++
      padLeftC '0' 8 (natDigitChars fracScaledClamped.toNat)
    if out.length = 14 then some out else none
  else none

/-! ## Real-number world: constants and math helpers -/

/-- 3-component real vector (models `std::array<double,3>` where `sqrt`/trig occur). -/
structure V3R where
  x : ℝ
  y : ℝ
  z : ℝ

/-- Real-valued model of `EciState` for the SGP4 wrapper. -/
structure EciStateR where
  position : V3R
  velocity : V3R

/-- The value-initialised (all-zero) `EciState{}` in the real world. -/
def zeroEciStateR : EciStateR :=
  { position := ⟨0, 0, 0⟩, velocity := ⟨0, 0, 0⟩ }

/-- `kEarthRadiusKm = 6378.137` (EphemerisPropagator.cpp:16, Sgp4Propagator.cpp:15). -/
noncomputable def kEarthRadiusKm : ℝ := 6378.137

/-- `kEarthMuKm3PerS2 = 398600.4418` (EphemerisPropagator.cpp:17). -/
noncomputable def kEarthMuKm3PerS2 : ℝ := 398600.4418

/-- The source's `kTwoPi` decimal literal denotes two pi; modelled exactly. -/
noncomputable def twoPi : ℝ := 2 * Real.pi

/-- `std::clamp` on reals. -/
noncomputable def clampR (v lo hi : ℝ) : ℝ :=
  if v < lo then lo else if hi < v then hi else v

/-- C `trunc` (round toward zero) of a real, as an integer. -/
noncomputable def rtrunc (x : ℝ) : ℤ :=
  if 0 ≤ x then ⌊x⌋ else ⌈x⌉

/-- `std::fmod(x, y) = x - y * trunc(x / y)` in the real model. -/
noncomputable def rfmod (x y : ℝ) : ℝ :=
  x - y * (rtrunc (x / y) : ℝ)

/-- Model of `wrapDeg` (EphemerisPropagator.cpp:19-26). -/
noncomputable def wrapDeg (deg : ℝ) : ℝ :=
  let x := rfmod deg 360
  if x < 0 then x + 360 else x

/-- `std::llround`: round half away from zero, as an integer. -/
noncomputable def llroundR (x : ℝ) : ℤ :=
  if 0 ≤ x then ⌊x + 1/2⌋ else -⌊-x + 1/2⌋

/-- C `atan2(y, x)` built from `Real.arctan` with the standard quadrant fixup. -/
noncomputable def atan2 (y x : ℝ) : ℝ :=
  if 0 < x then Real.arctan (y / x)
  else if x < 0 then
    (if 0 ≤ y then Real.arctan (y / x) + Real.pi else Real.arctan (y / x) - Real.pi)
  else
    (if 0 < y then Real.pi / 2 else if y < 0 then -(Real.pi / 2) else 0)

/-- Model of `OrbitalElements` (OrbitalElements.h) with the `meanAnomalyDeg`
field used throughout the sources. -/
structure OrbitalElements where
  semiMajorAxis : ℝ
  eccentricity : ℝ
  inclinationDeg : ℝ
  raanDeg : ℝ
  argPeriapsisDeg : ℝ
  meanAnomalyDeg : ℝ

/-! ## State-vector quantities

`extractOrbitalElements` (EphemerisPropagator.cpp:127-234) and
`buildSyntheticTleFromEciState` (EphemerisPropagator.cpp:239-393) compute the
same geometric quantities with character-identical formulas; the shared
computations are factored into the definitions below and each guard chain is
translated separately. -/

/-- `r = sqrt(rx*rx + ry*ry + rz*rz)`. -/
noncomputable def rmag (r : V3R) : ℝ :=
  Real.sqrt (r.x * r.x + r.y * r.y + r.z * r.z)

/-- `v2 = vx*vx + vy*vy + vz*vz`. -/
noncomputable def vsq (v : V3R) : ℝ :=
  v.x * v.x + v.y * v.y + v.z * v.z

/-- Specific angular momentum `h = r x v`. -/
noncomputable def hVecOf (r v : V3R) : V3R :=
  ⟨r.y * v.z - r.z * v.y, r.z * v.x - r.x * v.z, r.x * v.y - r.y * v.x⟩

/-- `h = |r x v|`. -/
noncomputable def hmagOf (r v : V3R) : ℝ :=
  let h := hVecOf r v
  Real.sqrt (h.x * h.x + h.y * h.y + h.z * h.z)

/-- `n = |k x h| = sqrt(nx*nx + ny*ny)` with `nx = -hy`, `ny = hx`. -/
noncomputable def nmagOf (r v : V3R) : ℝ :=
  let h := hVecOf r v
  Real.sqrt ((-h.y) * (-h.y) + h.x * h.x)

/-- Eccentricity vector `evec = (v x h)/mu - r/|r|`. -/
noncomputable def eVecOf (r v : V3R) : V3R :=
  let h := hVecOf r v
  let rm := rmag r
  ⟨(v.y * h.z - v.z * h.y) / kEarthMuKm3PerS2 - r.x / rm,
   (v.z * h.x - v.x * h.z) / kEarthMuKm3PerS2 - r.y / rm,
   (v.x * h.y - v.y * h.x) / kEarthMuKm3PerS2 - r.z / rm⟩

/-- Eccentricity `e = |evec|` as derived by the source from a state vector. -/
noncomputable def eccOf (r v : V3R) : ℝ :=
  let e := eVecOf r v
  Real.sqrt (e.x * e.x + e.y * e.y + e.z * e.z)

/-- Inclination `i = acos(clamp(hz/h, -1, 1))`. -/
noncomputable def iRadOf (r v : V3R) : ℝ :=
  Real.arccos (clampR ((hVecOf r v).z / hmagOf r v) (-1) 1)

/-- RAAN from `atan2(ny, nx)` when `n` is non-negligible, else 0, wrapped
into `[0, 2*pi)`. -/
noncomputable def raanOf (r v : V3R) : ℝ :=
  if nmagOf r v > 1e-12 then
    let h := hVecOf r v
    let raw := atan2 h.x (-h.y)
    if raw < 0 then raw + twoPi else raw
  else 0

/-- Argument of perigee (EphemerisPropagator.cpp:178-203): dot-product formula
with quadrant fixup via the sign of `evec.z` when both `e` and `n` are
non-negligible, else the near-circular/equatorial fallback value 0. -/
noncomputable def argpOf (r v : V3R) : ℝ :=
  if eccOf r v > 1e-10 ∧ nmagOf r v > 1e-12 then
    let h := hVecOf r v
    let e := eVecOf r v
    let ndote := ((-h.y) * e.x + h.x * e.y) / (nmagOf r v * eccOf r v)
    let a0 := Real.arccos (clampR ndote (-1) 1)
    if e.z < 0 then twoPi - a0 else a0
  else 0

/-- True anomaly (same branch structure as `argpOf`): dot-product formula with
quadrant fixup via the sign of `r . v`, else the true-longitude fallback
`atan2(ry/r, rx/r)` wrapped into `[0, 2*pi)`. -/
noncomputable def nuOf (r v : V3R) : ℝ :=
  if eccOf r v > 1e-10 ∧ nmagOf r v > 1e-12 then
    let e := eVecOf r v
    let edotr := (e.x * r.x + e.y * r.y + e.z * r.z) / (eccOf r v * rmag r)
    let n0 := Real.arccos (clampR edotr (-1) 1)
    let rdotv := r.x * v.x + r.y * v.y + r.z * v.z
    if rdotv < 0 then twoPi - n0 else n0
  else
    let nu0 := atan2 (r.y / rmag r) (r.x / rmag r)
    if nu0 < 0 then nu0 + twoPi else nu0

/-- Semi-major axis via vis-viva `a = 1/(2/r - v2/mu)`. -/
noncomputable def aOf (r v : V3R) : ℝ :=
  1 / (2 / rmag r - vsq v / kEarthMuKm3PerS2)

/-- Eccentric anomaly from true anomaly via the half-angle-free formulas of the
source (EphemerisPropagator.cpp:212-220), wrapped into `[0, 2*pi)`. -/
noncomputable def eccAnomOf (r v : V3R) : ℝ :=
  let e := eccOf r v
  let nu := nuOf r v
  let cosE := (e + Real.cos nu) / (1 + e * Real.cos nu)
  let sinE := (Real.sqrt (1 - e * e) * Real.sin nu) / (1 + e * Real.cos nu)
  let E0 := atan2 sinE cosE
  if E0 < 0 then E0 + twoPi else E0

/-- Mean anomaly `M = E - e sin E`, fmod-ed and wrapped into `[0, 2*pi)`. -/
noncomputable def meanAnomOf (r v : V3R) : ℝ :=
  let M0 := eccAnomOf r v - eccOf r v * Real.sin (eccAnomOf r v)
  let M1 := rfmod M0 twoPi
  if M1 < 0 then M1 + twoPi else M1

/-- Mean motion in revolutions per day (EphemerisPropagator.cpp:328-329). -/
noncomputable def meanMotionRevPerDayOf (r v : V3R) : ℝ :=
  Real.sqrt (kEarthMuKm3PerS2 / (aOf r v * aOf r v * aOf r v)) * 86400 / twoPi

/-- Model of `extractOrbitalElements` (EphemerisPropagator.cpp:127-234).
`bool` plus out-parameter becomes `Option OrbitalElements`; the `isfinite`
conjuncts are identically true in the real model; guard order follows the
source (`r`-range, `h > 0`, `e` in `[0, 0.999]` inclusive, `a`-range). -/
noncomputable def extractOrbitalElements (r v : V3R) : Option OrbitalElements :=
  if ¬(rmag r > kEarthRadiusKm ∧ rmag r < 1000000) then none
  else if ¬(hmagOf r v > 0) then none
  else if ¬(0 ≤ eccOf r v ∧ eccOf r v ≤ 0.999) then none
  else if ¬(aOf r v > kEarthRadiusKm ∧ aOf r v < 1000000) then none
  else some
    { semiMajorAxis := aOf r v / kEarthRadiusKm
      eccentricity := eccOf r v
      inclinationDeg := wrapDeg (iRadOf r v * 180 / Real.pi)
      raanDeg := wrapDeg (raanOf r v * 180 / Real.pi)
      argPeriapsisDeg := wrapDeg (argpOf r v * 180 / Real.pi)
      meanAnomalyDeg := wrapDeg (meanAnomOf r v * 180 / Real.pi) }

/-- Idealised `std::ostringstream` fixed-point rendering of a real with
`setprecision(prec)`: decimal digits of the value rounded (half away from
zero) to `prec` places, with a leading minus sign for negative values. -/
noncomputable def formatFixed (x : ℝ) (prec : ℕ) : List Char :=
  let scaled := llroundR (x * (10 : ℝ) ^ prec)
  let n := scaled.natAbs
  let ip := natDigitChars (n / 10 ^ prec)
  let fp := padLeftC '0' prec (natDigitChars (n % 10 ^ prec))
  let core := if prec = 0 then ip else ip ++ ['.'] ++ fp
  if scaled < 0 then '-' :: core else core

/-- Model of `buildSyntheticTleFromEciState` (EphemerisPropagator.cpp:239-393).
The epoch argument carries the `gmtime_r` decomposition (two-digit year,
day of year, fractional day) consumed by `tleEpochFromTimePoint`.  Guards in
source order: `r > 0`, `h > 0`, `e` in `[0, 0.999)` exclusive, `a > 0`,
mean motion positive, epoch formatting, and the final 69-character check. -/
noncomputable def buildSyntheticTleFromEciState
    (epoch : ℕ × ℕ × ℚ) (r v : V3R) : Option (List Char × List Char) :=
  if ¬(rmag r > 0) then none
  else if ¬(hmagOf r v > 0) then none
  else if ¬(0 ≤ eccOf r v ∧ eccOf r v < 0.999) then none
  else if ¬(aOf r v > 0) then none
  else if ¬(meanMotionRevPerDayOf r v > 0) then none
  else
    match tleEpochFromFields epoch.1 epoch.2.1 epoch.2.2 with
    | none => none
    | some epochStr =>
      let ecc7 : ℤ := min (max (llroundR (eccOf r v * 10000000)) 0) 9999999
      let l1 := "1 00001U 00000A   ".toList ++ epochStr ++
        "  .00000000  00000-0  00000-0 0  999".toList
      let l2 := "2 00001".toList
        ++ [' '] ++ padLeftC ' ' 8 (formatFixed (wrapDeg (iRadOf r v * 180 / Real.pi)) 4)
        ++ [' '] ++ padLeftC ' ' 8 (formatFixed (wrapDeg (raanOf r v * 180 / Real.pi)) 4)
        ++ [' '] ++ padLeftC '0' 7 (natDigitChars ecc7.toNat)
        ++ [' '] ++ padLeftC ' ' 8 (formatFixed (wrapDeg (argpOf r v * 180 / Real.pi)) 4)
        ++ [' '] ++ padLeftC ' ' 8 (formatFixed (wrapDeg (meanAnomOf r v * 180 / Real.pi)) 4)
        ++ [' '] ++ padLeftC ' ' 11 (formatFixed (meanMotionRevPerDayOf r v) 8)
        ++ padLeftC ' ' 5 (natDigitChars 1)
      let o1 := finalizeTleLine l1
      let o2 := finalizeTleLine l2
      if o1.length = 69 ∧ o2.length = 69 then some (o1, o2) else none

/-! ## Kepler solver (Kepler.cpp) -/

/-- The final axis permutation of `Kepler::positionEciFromElements`
(Kepler.cpp:58-60): `return {x, -z, y}`. -/
noncomputable def keplerAxisRemap (p : V3R) : V3R :=
  ⟨p.x, -p.z, p.y⟩

/-- The axis permutation applied by `Sgp4Propagator::propagate`
(Sgp4Propagator.cpp:105-106): `(x, y, z) -> (x, z, -y)` (before scaling). -/
noncomputable def sgp4AxisRemap (p : V3R) : V3R :=
  ⟨p.x, p.z, -p.y⟩

/-- The combined remap-and-scale of `Sgp4Propagator::propagate`:
`{v.x/k, v.z/k, -v.y/k}` with `k = kEarthRadiusKm`. -/
noncomputable def sgp4RenderOfKm (p : V3R) : V3R :=
  ⟨p.x / kEarthRadiusKm, p.z / kEarthRadiusKm, -p.y / kEarthRadiusKm⟩

/-- `degToRad` (Kepler.cpp:8-11). -/
noncomputable def degToRad (deg : ℝ) : ℝ :=
  deg * (Real.pi / 180)

/-- Model of `Kepler::positionEciFromElements` (Kepler.cpp:16-61): perifocal
position from the conic equation, rotation `R_z(raan) R_x(i) R_z(argp)`
written out component-wise as in the source, then the final axis remap. -/
noncomputable def positionEciFromElements (el : OrbitalElements) (nu : ℝ) : V3R :=
  let a := el.semiMajorAxis
  let e := el.eccentricity
  let i := degToRad el.inclinationDeg
  let raan := degToRad el.raanDeg
  let argp := degToRad el.argPeriapsisDeg
  let p := a * (1 - e * e)
  let r := p / (1 + e * Real.cos nu)
  let xp := r * Real.cos nu
  let yp := r * Real.sin nu
  let zp : ℝ := 0
  let cosO := Real.cos raan
  let sinO := Real.sin raan
  let cosi := Real.cos i
  let sini := Real.sin i
  let cosw := Real.cos argp
  let sinw := Real.sin argp
  let r11 := cosO * cosw - sinO * sinw * cosi
  let r12 := -cosO * sinw - sinO * cosw * cosi
  let r13 := sinO * sini
  let r21 := sinO * cosw + cosO * sinw * cosi
  let r22 := -sinO * sinw + cosO * cosw * cosi
  let r23 := -cosO * sini
  let r31 := sinw * sini
  let r32 := cosw * sini
  let r33 := cosi
  keplerAxisRemap
    ⟨r11 * xp + r12 * yp + r13 * zp,
     r21 * xp + r22 * yp + r23 * zp,
     r31 * xp + r32 * yp + r33 * zp⟩

/-! ## Orbit sampler (OrbitSampler.cpp) -/

/-- The fixed-count fixed-point iteration for Kepler's equation
(OrbitSampler.cpp:31-35): start at `M`, iterate `E = M + e sin E`. -/
noncomputable def kepIterate (e M : ℝ) : ℕ → ℝ
  | 0 => M
  | k + 1 => M + e * Real.sin (kepIterate e M k)

/-- True anomaly sampled at step `s` of `segments`
(OrbitSampler.cpp:26-38): wrapped mean anomaly, 8 fixed-point iterations,
half-angle conversion to true anomaly. -/
noncomputable def samplePointNu (el : OrbitalElements) (segments : ℤ) (s : ℕ) : ℝ :=
  let meanAnomaly0 := el.meanAnomalyDeg * (twoPi / 360)
  let M := rfmod (meanAnomaly0 + ((s : ℝ) / (segments : ℝ)) * twoPi) twoPi
  let E := kepIterate el.eccentricity M 8
  2 * atan2 (Real.sqrt (1 + el.eccentricity) * Real.sin (E / 2))
            (Real.sqrt (1 - el.eccentricity) * Real.cos (E / 2))

/-- Position sampled at step `s` (OrbitSampler.cpp:39). -/
noncomputable def samplePoint (el : OrbitalElements) (segments : ℤ) (s : ℕ) : V3R :=
  positionEciFromElements el (samplePointNu el segments s)

/-- `segments` clamped to a minimum of 8 (OrbitSampler.cpp:15-17). -/
def segClamp (n : ℤ) : ℤ :=
  if n < 8 then 8 else n

/-- The sampled points of `OrbitSampler::sampleOrbitPolyline`, one per step
`s` in `[0, segments]`. -/
noncomputable def samplePoints (el : OrbitalElements) (n : ℤ) : List V3R :=
  (List.range ((segClamp n).toNat + 1)).map (samplePoint el (segClamp n))

/-- Model of `OrbitSampler::sampleOrbitPolyline` (OrbitSampler.cpp:13-46):
the flat float vector (three components pushed per step; the
`double`-to-`float` casts are the identity in the real model). -/
noncomputable def sampleOrbitPolyline (el : OrbitalElements) (n : ℤ) : List ℝ :=
  (samplePoints el n).foldr (fun p acc => p.x :: p.y :: p.z :: acc) []

/-- Euclidean norm of a sampled point. -/
noncomputable def vnorm (p : V3R) : ℝ :=
  Real.sqrt (p.x * p.x + p.y * p.y + p.z * p.z)

/-! ## SGP4 wrapper (Sgp4Propagator.cpp, non-stub path)

`libsgp4` is an external library; its TLE parser, propagator constructor,
position finder and element accessors enter the model as function parameters
whose exceptions are `Except.error`.  All control flow (`try`/`catch`
placement, null checks, result shaping) is translated from the source. -/

/-- Model of `Sgp4Propagator::Context`: the parsed TLE and the SGP4 model,
either of which may be absent after a construction failure. -/
structure Sgp4Ctx (TleT ModelT : Type) where
  tle : Option TleT
  sgp4 : Option ModelT

/-- Model of the `Sgp4Propagator` constructor (Sgp4Propagator.cpp:59-75):
assign `tle`, then `sgp4`, inside one `try`; a parse exception leaves both
absent, a model-construction exception leaves only `tle` assigned. -/
def mkSgp4Propagator {TleT ModelT : Type}
    (parseTle : Except Unit TleT) (mkModel : TleT → Except Unit ModelT) :
    Sgp4Ctx TleT ModelT :=
  match parseTle with
  | .error _ => ⟨none, none⟩
  | .ok tl =>
    match mkModel tl with
    | .error _ => ⟨some tl, none⟩
    | .ok m => ⟨some tl, some m⟩

/-- Model of `Sgp4Propagator::propagate` (Sgp4Propagator.cpp:77-113):
zero state when no model is present or when `FindPosition` raises, else the
remapped-and-scaled km state. -/
noncomputable def sgp4Propagate {TleT ModelT timeT : Type}
    (ctx : Sgp4Ctx TleT ModelT)
    (findPosition : ModelT → timeT → Except Unit (V3R × V3R)) (t : timeT) :
    EciStateR :=
  match ctx.sgp4 with
  | none => zeroEciStateR
  | some m =>
    match findPosition m t with
    | .error _ => zeroEciStateR
    | .ok pv => { position := sgp4RenderOfKm pv.1, velocity := sgp4RenderOfKm pv.2 }

/-- Model of `Sgp4Propagator::tryGetMeanElements` (Sgp4Propagator.cpp:115-142):
fails when no TLE is present or the accessors raise. -/
def sgp4TryGetMeanElements {TleT ModelT : Type}
    (ctx : Sgp4Ctx TleT ModelT) (readElements : TleT → Except Unit OrbitalElements) :
    Option OrbitalElements :=
  match ctx.tle with
  | none => none
  | some tl => (readElements tl).toOption

/-- Model of `Sgp4Propagator::tryGetOrbitalPeriodSeconds`
(Sgp4Propagator.cpp:144-165): fails when no TLE is present or the TLE mean
motion is non-positive; else `86400 / meanMotion` (checked positive). -/
noncomputable def sgp4TryGetOrbitalPeriodSeconds {TleT ModelT : Type}
    (ctx : Sgp4Ctx TleT ModelT) (meanMotionRevPerDay : TleT → ℝ) : Option ℝ :=
  match ctx.tle with
  | none => none
  | some tl =>
    let mm := meanMotionRevPerDay tl
    if mm ≤ 0 then none
    else if 86400 / mm > 0 then some (86400 / mm) else none

/-! ## EphemerisPropagator constructor (EphemerisPropagator.cpp:396-463) -/

/-- Rational sample coordinates viewed as reals. -/
noncomputable def v3rOfQ (p : V3Q) : V3R :=
  ⟨(p.x : ℝ), (p.y : ℝ), (p.z : ℝ)⟩

/-- Model of the `EphemerisPropagator` constructor.  Hooks:
`sortByTime` stands for `std::sort` with comparator `a.t < b.t` (which
guarantees only an ascending permutation, not stability — see
`stdSortContractOK`); `epochFieldsOf` stands for the `gmtime_r` decomposition
of a timestamp; `mkSgp4FromTle` stands for `new Sgp4Propagator(l1, l2)` whose
construction exceptions the source swallows (mapped to `none`).
Steps as in the source: discard zero-timestamp samples, sort, extract
Keplerian elements from the first sample, then either single-sample SGP4
synthesis or per-sample synthesis when any sample carries covariance. -/
noncomputable def mkEphemeris
    (mkSgp4FromTle : List Char × List Char → Option Sgp4Iface)
    (epochFieldsOf : ℚ → ℕ × ℕ × ℚ)
    (sortByTime : List EphemerisSample → List EphemerisSample)
    (input : List EphemerisSample) : EphState OrbitalElements :=
  let retained := sortByTime (input.filter (fun s => decide (s.t ≠ 0)))
  let kep :=
    match retained.head? with
    | none => none
    | some s0 => extractOrbitalElements (v3rOfQ s0.positionKm) (v3rOfQ s0.velocityKmPerS)
  let sgp4 :=
    if retained.length = 1 then
      match retained.head? with
      | none => none
      | some s0 =>
        match buildSyntheticTleFromEciState (epochFieldsOf s0.t)
            (v3rOfQ s0.positionKm) (v3rOfQ s0.velocityKmPerS) with
        | none => none
        | some lines => mkSgp4FromTle lines
    else none
  let bySample :=
    if retained.length ≠ 1 ∧ retained ≠ [] ∧
        retained.any (fun s => s.hasCovarianceUpper) then
      let arr := retained.map (fun s =>
        if s.hasCovarianceUpper then
          match buildSyntheticTleFromEciState (epochFieldsOf s.t)
              (v3rOfQ s.positionKm) (v3rOfQ s.velocityKmPerS) with
          | none => none
          | some lines => mkSgp4FromTle lines
        else none)
      if arr.any (fun o => o.isSome) then arr else []
    else []
  ⟨retained, sgp4, bySample, kep⟩

/-! ## Concrete fixtures used by counterexample theorems -/

/-- A sample at t = 10 s with position (1000, 0, 0) km, no covariance. -/
def sampleTieA : EphemerisSample :=
  { t := 10, positionKm := ⟨1000, 0, 0⟩, velocityKmPerS := ⟨0, 1, 0⟩,
    hasCovarianceUpper := false, covarianceUpper := [] }

/-- A second sample at the same t = 10 s with a different position. -/
def sampleTieB : EphemerisSample :=
  { t := 10, positionKm := ⟨2000, 0, 0⟩, velocityKmPerS := ⟨0, 2, 0⟩,
    hasCovarianceUpper := false, covarianceUpper := [] }

/-- A reachable propagator state with two retained samples sharing a
timestamp and no SGP4 path active (the constructor keeps duplicate-time
samples and, with no covariance flags, builds no per-sample propagators). -/
def dupTimeState : EphState OrbitalElements :=
  { samples := [sampleTieA, sampleTieB], sgp4 := none,
    sgp4BySample := [], keplerianElements := none }

/-- The component-wise average of two samples (the expected result of
interpolating at the midpoint time). -/
def midSample (a b : EphemerisSample) : EphemerisSample :=
  { t := a.t
    positionKm := ⟨(a.positionKm.x + b.positionKm.x) / 2,
                   (a.positionKm.y + b.positionKm.y) / 2,
                   (a.positionKm.z + b.positionKm.z) / 2⟩
    velocityKmPerS := ⟨(a.velocityKmPerS.x + b.velocityKmPerS.x) / 2,
                       (a.velocityKmPerS.y + b.velocityKmPerS.y) / 2,
                       (a.velocityKmPerS.z + b.velocityKmPerS.z) / 2⟩
    hasCovarianceUpper := false
    covarianceUpper := [] }

/-- A propagator state with two distinct-time retained samples and no SGP4
path, for witness instances of the interpolation claim. -/
def twoSampleState : EphState OrbitalElements :=
  { samples :=
      [{ t := 1, positionKm := ⟨100, 200, 300⟩, velocityKmPerS := ⟨1, 2, 3⟩,
         hasCovarianceUpper := false, covarianceUpper := [] },
       { t := 11, positionKm := ⟨200, 400, 600⟩, velocityKmPerS := ⟨3, 2, 1⟩,
         hasCovarianceUpper := false, covarianceUpper := [] }]
    sgp4 := none
    sgp4BySample := []
    keplerianElements := none }

/-- A distinguishable synthesised-SGP4 interface used by witness instances. -/
def ifaceW : Sgp4Iface :=
  { propagateAt := fun _ => { position := ⟨1, 2, 3⟩, velocity := ⟨4, 5, 6⟩ }
    periodSeconds := some 5400 }

/-- A state whose single-sample synthesised SGP4 propagator exists. -/
def singleSgp4State : EphState OrbitalElements :=
  { samples :=
      [{ t := 2, positionKm := ⟨7000, 0, 0⟩, velocityKmPerS := ⟨0, 7, 0⟩,
         hasCovarianceUpper := true, covarianceUpper := [] }]
    sgp4 := some ifaceW
    sgp4BySample := []
    keplerianElements := none }

/-- A state with an index-aligned per-sample SGP4 array: a propagator at
index 0, an empty slot at index 1. -/
def bySampleState : EphState OrbitalElements :=
  { samples :=
      [{ t := 1, positionKm := ⟨7000, 0, 0⟩, velocityKmPerS := ⟨0, 7, 0⟩,
         hasCovarianceUpper := true, covarianceUpper := [] },
       { t := 11, positionKm := ⟨7100, 0, 0⟩, velocityKmPerS := ⟨0, 7, 0⟩,
         hasCovarianceUpper := true, covarianceUpper := [] }]
    sgp4 := none
    sgp4BySample := [some ifaceW, none]
    keplerianElements := none }

/-- The single sample of `singleSampleState`. -/
def singleSampleW : EphemerisSample :=
  { t := 3, positionKm := ⟨7000, 0, 0⟩, velocityKmPerS := ⟨0, 7, 0⟩,
    hasCovarianceUpper := false, covarianceUpper := [] }

/-- A state with exactly one retained sample and no SGP4 path. -/
def singleSampleState : EphState OrbitalElements :=
  { samples := [singleSampleW]
    sgp4 := none
    sgp4BySample := []
    keplerianElements := none }

/-- Position (km) of a state whose derived eccentricity is exactly 0.999:
on the x axis at `251 * mu / 11250 ≈ 8893.2` km. -/
noncomputable def rA : V3R := ⟨251 * kEarthMuKm3PerS2 / 11250, 0, 0⟩

/-- Velocity (km/s) paired with `rA`: radial component 8991/1004, tangential
component 3.  The derived eccentricity vector is (-0.7992, -0.5994, 0), of
norm exactly 0.999. -/
noncomputable def vA : V3R := ⟨8991 / 1004, 3, 0⟩

/-- A position 1000 km from the origin — below Earth's radius. -/
noncomputable def rB : V3R := ⟨1000, 0, 0⟩

/-- A tangential velocity paired with `rB` giving a small eccentricity. -/
noncomputable def vB : V3R := ⟨0, 20, 0⟩

/-- Concrete orbital elements (a = 2 Re, e = 1/2) for witness instances. -/
noncomputable def elementsW : OrbitalElements :=
  { semiMajorAxis := 2, eccentricity := 1/2, inclinationDeg := 30,
    raanDeg := 40, argPeriapsisDeg := 50, meanAnomalyDeg := 60 }

/-! ## Theorems -/

theorem tleLinePad68_length (l : List Char) : (tleLinePad68 l).length = 68 := by
  unfold tleLinePad68
  split_ifs with h
  · simp only [List.length_append, List.length_replicate]
    omega
  · simp only [List.length_take]
    omega

theorem finalizeTleLine_length (l : List Char) : (finalizeTleLine l).length = 69 := by
  unfold finalizeTleLine
  simp [tleLinePad68_length]

theorem finalizeTleLine_take68 (l : List Char) :
    (finalizeTleLine l).take 68 = tleLinePad68 l := by
  unfold finalizeTleLine
  rw [← tleLinePad68_length l]
  exact List.take_left _ _

theorem finalizeTleLine_getLast? (l : List Char) :
    (finalizeTleLine l).getLast? = some (checksumChar ((finalizeTleLine l).take 68)) := by
  rw [finalizeTleLine_take68]
  exact List.getLast?_concat _

theorem tleLineOkB_finalize (l : List Char) : tleLineOkB (finalizeTleLine l) = true := by
  unfold tleLineOkB
  rw [Bool.and_eq_true, beq_iff_eq, beq_iff_eq]
  exact ⟨finalizeTleLine_length l, finalizeTleLine_getLast? l⟩

/-- C7: every line emitted by the synthetic-TLE builder is exactly 69
characters long and its last character is the digit
`(sum of the numeric digit characters of the first 68 characters +
count of minus signs among them) mod 10`: this holds for the
`finalizeTleLine` post-processing applied to every emitted line, and hence
for both lines of every successful `buildSyntheticTleFromEciState` output. -/
theorem tle_emitted_lines_length_and_checksum :
    (∀ l : List Char, (finalizeTleLine l).length = 69 ∧
        (finalizeTleLine l).getLast? = some (checksumChar ((finalizeTleLine l).take 68))) ∧
    (∀ (epoch : ℕ × ℕ × ℚ) (r v : V3R),
        ((buildSyntheticTleFromEciState epoch r v).all
          (fun p => tleLineOkB p.1 && tleLineOkB p.2)) = true) := by
  constructor
  · intro l
    exact ⟨finalizeTleLine_length l, finalizeTleLine_getLast? l⟩
  · intro epoch r v
    unfold buildSyntheticTleFromEciState
    repeat' split
    all_goals first
      | rfl
      | (dsimp only []; split_ifs <;> simp [Option.all, tleLineOkB_finalize])

/-- C4 (code bug): the axis remap of the Kepler solver, `(x,y,z) -> (x,-z,y)`
(Kepler.cpp:60), and the axis remap of the SGP4/ephemeris paths,
`(x,y,z) -> (x,z,-y)` (Sgp4Propagator.cpp:105), are different permutations:
they disagree at the input vector (1, 2, 3). -/
theorem axis_remap_mismatch :
    keplerAxisRemap ⟨1, 2, 3⟩ = ⟨1, -3, 2⟩ ∧
    sgp4AxisRemap ⟨1, 2, 3⟩ = ⟨1, 3, -2⟩ ∧
    keplerAxisRemap ⟨1, 2, 3⟩ ≠ sgp4AxisRemap ⟨1, 2, 3⟩ := by
  refine ⟨rfl, rfl, fun h => ?_⟩
  have h2 : (-3 : ℝ) = 3 := congrArg V3R.y h
  norm_num at h2

/-- C8: after a malformed-TLE construction (the parse raises), the wrapper
holds neither a TLE nor an SGP4 model, so `propagate` returns the all-zero
state for every time and both accessors report unavailable; moreover
`propagate` returns the all-zero state whenever the underlying propagation
raises, and whenever no model is present. -/
theorem sgp4_malformed_tle_unavailable
    {TleT ModelT timeT : Type}
    (parseTle : Except Unit TleT) (mkModel : TleT → Except Unit ModelT)
    (findPosition : ModelT → timeT → Except Unit (V3R × V3R))
    (readElements : TleT → Except Unit OrbitalElements)
    (meanMotionRevPerDay : TleT → ℝ)
    (hbad : parseTle = Except.error ()) :
    (∀ t, sgp4Propagate (mkSgp4Propagator parseTle mkModel) findPosition t = zeroEciStateR) ∧
    sgp4TryGetMeanElements (mkSgp4Propagator parseTle mkModel) readElements = none ∧
    sgp4TryGetOrbitalPeriodSeconds (mkSgp4Propagator parseTle mkModel) meanMotionRevPerDay
      = none ∧
    (∀ (ctx : Sgp4Ctx TleT ModelT) (m : ModelT) (t : timeT),
        ctx.sgp4 = some m → findPosition m t = Except.error () →
        sgp4Propagate ctx findPosition t = zeroEciStateR) ∧
    (∀ (ctx : Sgp4Ctx TleT ModelT) (t : timeT),
        ctx.sgp4 = none → sgp4Propagate ctx findPosition t = zeroEciStateR) := by
  subst hbad
  refine ⟨fun t => rfl, rfl, rfl, ?_, ?_⟩
  · intro ctx m t hm hf
    simp [sgp4Propagate, hm, hf]
  · intro ctx t hm
    simp [sgp4Propagate, hm]

/-- Closed instance of `sgp4_malformed_tle_unavailable` at concrete hooks. -/
theorem sgp4_malformed_tle_unavailable_witness :
    (∀ t : ℚ, sgp4Propagate
        (mkSgp4Propagator (Except.error () : Except Unit Unit)
          (fun _ => Except.ok ()))
        (fun (_ : Unit) (_ : ℚ) => Except.error ()) t = zeroEciStateR) ∧
    sgp4TryGetMeanElements
        (mkSgp4Propagator (Except.error () : Except Unit Unit)
          (fun _ => Except.ok ()))
        (fun _ => Except.error ()) = none ∧
    sgp4TryGetOrbitalPeriodSeconds
        (mkSgp4Propagator (Except.error () : Except Unit Unit)
          (fun _ => Except.ok ()))
        (fun _ => (1 : ℝ)) = none := by
  have h := sgp4_malformed_tle_unavailable
    (Except.error () : Except Unit Unit) (fun _ => Except.ok ())
    (fun (_ : Unit) (_ : ℚ) => Except.error ()) (fun _ => Except.error ())
    (fun _ => (1 : ℝ)) rfl
  exact ⟨h.1, h.2.1, h.2.2.1⟩

/-- C9 (code bug): the constructor sorts the retained samples with
`std::sort`, whose contract guarantees only an ascending permutation.  For an
input with two equal-time samples, both orders satisfy that contract, so the
code does not ensure the claimed input-order (stable) tie-break. -/
theorem sort_contract_tie_order_gap :
    stdSortContractOK ([sampleTieA, sampleTieB].filter (fun s => decide (s.t ≠ 0)))
      [sampleTieA, sampleTieB] ∧
    stdSortContractOK ([sampleTieA, sampleTieB].filter (fun s => decide (s.t ≠ 0)))
      [sampleTieB, sampleTieA] ∧
    [sampleTieB, sampleTieA] ≠ [sampleTieA, sampleTieB] := by
  refine ⟨⟨?_, ?_⟩, ⟨?_, ?_⟩, ?_⟩ <;> decide

/-- C2 counterexample: with two retained samples sharing the timestamp 10 s
and no SGP4 path active, `propagate` at that stored timestamp does not return
the second stored sample's converted state (it returns the first's), so the
exact-timestamp clause fails on duplicate timestamps. -/
theorem ephemeris_duplicate_timestamp_counterexample :
    dupTimeState.sgp4 = none ∧ dupTimeState.sgp4BySample = [] ∧
    2 ≤ dupTimeState.samples.length ∧ timeSorted dupTimeState.samples ∧
    (dupTimeState.samples.getD 1 default).t = 10 ∧
    ephPropagate dupTimeState 10 ≠ toRenderState (dupTimeState.samples.getD 1 default) := by
  refine ⟨rfl, rfl, by decide, ?_, by decide, ?_⟩
  · unfold timeSorted dupTimeState
    decide
  · have h1 : ephPropagate dupTimeState 10 = toRenderState sampleTieA := rfl
    have h2 : dupTimeState.samples.getD 1 default = sampleTieB := rfl
    intro h
    rw [h1, h2] at h
    have h3 : (toRenderState sampleTieA).position.x = (toRenderState sampleTieB).position.x := by
      rw [h]
    simp only [toRenderState, sampleTieA, sampleTieB, kEarthRadiusKmQ] at h3
    norm_num at h3

/-! ### List-index helper lemmas -/

theorem headD_eq_getD (l : List EphemerisSample) (h : l ≠ []) :
    l.headD default = l.getD 0 default := by
  cases l with
  | nil => exact absurd rfl h
  | cons a tl => rfl

theorem getLastD_eq_getD (l : List EphemerisSample) :
    l.getLastD default = l.getD (l.length - 1) default := by
  rw [List.getLastD_eq_getLast?, List.getLast?_eq_getElem?, List.getD_eq_getElem?_getD]

theorem lowerBoundIdx_le_length (l : List EphemerisSample) (t : ℚ) :
    lowerBoundIdx l t ≤ l.length :=
  (List.takeWhile_sublist _).length_le

theorem lowerBoundIdx_lt (l : List EphemerisSample) (t : ℚ) :
    ∀ j, j < lowerBoundIdx l t → (l.getD j default).t < t := by
  induction l with
  | nil => intro j hj; simp [lowerBoundIdx] at hj
  | cons a tl ih =>
    intro j hj
    rw [lowerBoundIdx, List.takeWhile_cons] at hj
    simp only [decide_eq_true_eq] at hj
    by_cases ha : a.t < t
    · rw [if_pos ha] at hj
      simp only [List.length_cons] at hj
      cases j with
      | zero => exact ha
      | succ j' =>
        have hj' : j' < lowerBoundIdx tl t := by
          rw [lowerBoundIdx]; omega
        exact ih j' hj'
    · rw [if_neg ha] at hj
      simp at hj

theorem lowerBoundIdx_ge (l : List EphemerisSample) (t : ℚ) :
    lowerBoundIdx l t < l.length → t ≤ (l.getD (lowerBoundIdx l t) default).t := by
  induction l with
  | nil => intro h; simp [lowerBoundIdx] at h
  | cons a tl ih =>
    intro h
    by_cases ha : a.t < t
    · have hlb : lowerBoundIdx (a :: tl) t = lowerBoundIdx tl t + 1 := by
        simp [lowerBoundIdx, List.takeWhile_cons, ha]
      rw [hlb] at h ⊢
      have h2 : lowerBoundIdx tl t < tl.length := by
        simp only [List.length_cons] at h; omega
      exact ih h2
    · have hlb : lowerBoundIdx (a :: tl) t = 0 := by
        simp [lowerBoundIdx, List.takeWhile_cons, ha]
      rw [hlb]
      exact le_of_not_lt ha

theorem lowerBoundIdx_eq (l : List EphemerisSample) (t : ℚ) (i : ℕ)
    (hi : i ≤ l.length)
    (hlt : ∀ j, j < i → (l.getD j default).t < t)
    (hge : i < l.length → t ≤ (l.getD i default).t) :
    lowerBoundIdx l t = i := by
  have h1 : ¬ lowerBoundIdx l t < i := by
    intro hc
    have h2 := lowerBoundIdx_ge l t (lt_of_lt_of_le hc hi)
    have h3 := hlt _ hc
    exact absurd (lt_of_le_of_lt h2 h3) (lt_irrefl t)
  have h4 : ¬ i < lowerBoundIdx l t := by
    intro hc
    have h5 := lowerBoundIdx_lt l t i hc
    have hi' : i < l.length := lt_of_lt_of_le hc (lowerBoundIdx_le_length l t)
    exact absurd (lt_of_le_of_lt (hge hi') h5) (lt_irrefl t)
  omega

theorem strictSorted_getD_lt (l : List EphemerisSample)
    (hs : strictlyTimeSorted l) {i j : ℕ} (hij : i < j) (hj : j < l.length) :
    (l.getD i default).t < (l.getD j default).t := by
  have hi : i < l.length := lt_trans hij hj
  rw [List.getD_eq_getElem l default hi, List.getD_eq_getElem l default hj]
  exact (List.pairwise_iff_getElem.mp hs) i j hi hj hij

theorem strictSorted_getD_le (l : List EphemerisSample)
    (hs : strictlyTimeSorted l) {i j : ℕ} (hij : i ≤ j) (hj : j < l.length) :
    (l.getD i default).t ≤ (l.getD j default).t := by
  rcases eq_or_lt_of_le hij with h | h
  · subst h; exact le_refl _
  · exact le_of_lt (strictSorted_getD_lt l hs h hj)

/-! ### interpPart behaviour -/

theorem toRenderState_lerp_one (a b : EphemerisSample) :
    toRenderState (lerpSampleAt a b 1) = toRenderState b := by
  simp only [toRenderState, lerpSampleAt, EciStateQ.mk.injEq, V3Q.mk.injEq]
  refine ⟨⟨?_, ?_, ?_⟩, ?_, ?_, ?_⟩ <;> ring

theorem interpPart_clamp_low (l : List EphemerisSample) (t : ℚ)
    (hn : 2 ≤ l.length) (ht : t ≤ (l.getD 0 default).t) :
    interpPart l t = toRenderState (l.getD 0 default) := by
  have hne : l ≠ [] := by intro h; rw [h] at hn; simp at hn
  unfold interpPart
  rw [if_neg (by omega : ¬ l.length = 1), headD_eq_getD l hne, if_pos ht]

theorem interpPart_clamp_high (l : List EphemerisSample) (t : ℚ)
    (hs : strictlyTimeSorted l) (hn : 2 ≤ l.length)
    (ht : (l.getD (l.length - 1) default).t ≤ t) :
    interpPart l t = toRenderState (l.getD (l.length - 1) default) := by
  have hne : l ≠ [] := by intro h; rw [h] at hn; simp at hn
  have h0last : (l.getD 0 default).t < (l.getD (l.length - 1) default).t :=
    strictSorted_getD_lt l hs (by omega) (by omega)
  unfold interpPart
  rw [if_neg (by omega : ¬ l.length = 1), headD_eq_getD l hne,
    if_neg (by exact not_le.mpr (lt_of_lt_of_le h0last ht)),
    getLastD_eq_getD, if_pos ht]

theorem interpPart_at_sample (l : List EphemerisSample)
    (hs : strictlyTimeSorted l) (hn : 2 ≤ l.length)
    (i : ℕ) (hi : i < l.length) :
    interpPart l (l.getD i default).t = toRenderState (l.getD i default) := by
  rcases Nat.eq_zero_or_pos i with h0 | hpos
  · subst h0
    exact interpPart_clamp_low l _ hn (le_refl _)
  · rcases eq_or_lt_of_le (Nat.succ_le_of_lt hi) with hlast | hmid
    · have hieq : i = l.length - 1 := by omega
      subst hieq
      exact interpPart_clamp_high l _ hs hn (le_refl _)
    · -- interior index: 0 < i < l.length - 1
      have hne : l ≠ [] := by intro h; rw [h] at hn; simp at hn
      have h0i : (l.getD 0 default).t < (l.getD i default).t :=
        strictSorted_getD_lt l hs hpos hi
      have hilast : (l.getD i default).t < (l.getD (l.length - 1) default).t :=
        strictSorted_getD_lt l hs (by omega) (by omega)
      have hlb : lowerBoundIdx l (l.getD i default).t = i := by
        refine lowerBoundIdx_eq l _ i (le_of_lt hi) ?_ ?_
        · intro j hj
          exact strictSorted_getD_lt l hs hj hi
        · intro _; exact le_refl _
      unfold interpPart
      rw [if_neg (by omega : ¬ l.length = 1), headD_eq_getD l hne,
        if_neg (not_le.mpr h0i), getLastD_eq_getD,
        if_neg (not_le.mpr hilast), hlb, if_neg (by omega : ¬ i = 0)]
      have hdtpos : (0 : ℚ) < (l.getD i default).t - (l.getD (i - 1) default).t := by
        have := strictSorted_getD_lt l hs (show i - 1 < i by omega) hi
        linarith
      rw [if_neg (not_le.mpr hdtpos)]
      rw [div_self (ne_of_gt hdtpos)]
      unfold lerpSamples
      have hcl : clampQ 1 0 1 = 1 := by norm_num [clampQ]
      rw [hcl, toRenderState_lerp_one]

theorem interpPart_between (l : List EphemerisSample) (t : ℚ)
    (hs : strictlyTimeSorted l) (hn : 2 ≤ l.length)
    (i : ℕ) (hi : i + 1 < l.length)
    (h1 : (l.getD i default).t < t) (h2 : t < (l.getD (i + 1) default).t) :
    interpPart l t
      = toRenderState (lerpSampleAt (l.getD i default) (l.getD (i + 1) default)
          ((t - (l.getD i default).t)
            / ((l.getD (i + 1) default).t - (l.getD i default).t))) := by
  have hne : l ≠ [] := by intro h; rw [h] at hn; simp at hn
  have h0t : (l.getD 0 default).t < t :=
    lt_of_le_of_lt (strictSorted_getD_le l hs (Nat.zero_le i) (by omega)) h1
  have htlast : t < (l.getD (l.length - 1) default).t :=
    lt_of_lt_of_le h2 (strictSorted_getD_le l hs (by omega) (by omega))
  have hlb : lowerBoundIdx l t = i + 1 := by
    refine lowerBoundIdx_eq l t (i + 1) hi.le ?_ ?_
    · intro j hj
      exact lt_of_le_of_lt
        (strictSorted_getD_le l hs (by omega : j ≤ i) (by omega)) h1
    · intro _; exact h2.le
  unfold interpPart
  rw [if_neg (by omega : ¬ l.length = 1), headD_eq_getD l hne,
    if_neg (not_le.mpr h0t), getLastD_eq_getD,
    if_neg (not_le.mpr htlast), hlb, if_neg (by omega : ¬ i + 1 = 0)]
  have hstep : (i + 1) - 1 = i := by omega
  rw [hstep]
  have hdtpos : (0 : ℚ) < (l.getD (i + 1) default).t - (l.getD i default).t := by
    linarith
  rw [if_neg (not_le.mpr hdtpos)]
  unfold lerpSamples
  have hu0 : (0 : ℚ) < (t - (l.getD i default).t)
      / ((l.getD (i + 1) default).t - (l.getD i default).t) :=
    div_pos (by linarith) hdtpos
  have hu1 : (t - (l.getD i default).t)
      / ((l.getD (i + 1) default).t - (l.getD i default).t) < 1 :=
    (div_lt_one hdtpos).mpr (by linarith)
  have hcl : clampQ ((t - (l.getD i default).t)
      / ((l.getD (i + 1) default).t - (l.getD i default).t)) 0 1
      = (t - (l.getD i default).t)
        / ((l.getD (i + 1) default).t - (l.getD i default).t) := by
    unfold clampQ
    rw [if_neg (not_lt.mpr hu0.le), if_neg (not_lt.mpr hu1.le)]
  rw [hcl]

theorem ephPropagate_no_sgp4 {elemsT : Type} (st : EphState elemsT) (t : ℚ)
    (h1 : st.samples ≠ []) (h2 : st.sgp4 = none) (h3 : st.sgp4BySample = []) :
    ephPropagate st t = interpPart st.samples t := by
  unfold ephPropagate
  rw [if_neg h1, h2, h3]
  simp

/-- C2 (amended: the retained samples have pairwise-distinct, i.e. strictly
increasing, timestamps): with no SGP4 path active and at least two samples,
`propagate` at a stored timestamp returns that sample's converted state; at
or before the first sample it returns the first sample's converted state; at
or after the last it returns the last's; strictly between adjacent samples it
returns the component-wise linear interpolation by the fractional time
offset followed by the unit/frame conversion, so the midpoint time yields
the component-wise average. -/
theorem ephemeris_interpolation_and_clamping
    (st : EphState OrbitalElements) (t : ℚ)
    (hs4 : st.sgp4 = none) (hby : st.sgp4BySample = [])
    (hn : 2 ≤ st.samples.length) (hsort : strictlyTimeSorted st.samples) :
    (∀ i, i < st.samples.length →
        ephPropagate st (st.samples.getD i default).t
          = toRenderState (st.samples.getD i default)) ∧
    (t ≤ (st.samples.getD 0 default).t →
        ephPropagate st t = toRenderState (st.samples.getD 0 default)) ∧
    ((st.samples.getD (st.samples.length - 1) default).t ≤ t →
        ephPropagate st t
          = toRenderState (st.samples.getD (st.samples.length - 1) default)) ∧
    (∀ i, i + 1 < st.samples.length →
        (st.samples.getD i default).t < t → t < (st.samples.getD (i + 1) default).t →
        ephPropagate st t
          = toRenderState (lerpSampleAt (st.samples.getD i default)
              (st.samples.getD (i + 1) default)
              ((t - (st.samples.getD i default).t)
                / ((st.samples.getD (i + 1) default).t
                    - (st.samples.getD i default).t)))) ∧
    (∀ i, i + 1 < st.samples.length →
        ephPropagate st
            (((st.samples.getD i default).t + (st.samples.getD (i + 1) default).t) / 2)
          = toRenderState (midSample (st.samples.getD i default)
              (st.samples.getD (i + 1) default))) := by
  have hne : st.samples ≠ [] := by
    intro h; rw [h] at hn; simp at hn
  refine ⟨?_, ?_, ?_, ?_, ?_⟩
  · intro i hi
    rw [ephPropagate_no_sgp4 st _ hne hs4 hby]
    exact interpPart_at_sample st.samples hsort hn i hi
  · intro ht
    rw [ephPropagate_no_sgp4 st _ hne hs4 hby]
    exact interpPart_clamp_low st.samples t hn ht
  · intro ht
    rw [ephPropagate_no_sgp4 st _ hne hs4 hby]
    exact interpPart_clamp_high st.samples t hsort hn ht
  · intro i hi h1 h2
    rw [ephPropagate_no_sgp4 st _ hne hs4 hby]
    exact interpPart_between st.samples t hsort hn i hi h1 h2
  · intro i hi
    have hadj : (st.samples.getD i default).t < (st.samples.getD (i + 1) default).t :=
      strictSorted_getD_lt st.samples hsort (by omega) hi
    have h1 : (st.samples.getD i default).t
        < ((st.samples.getD i default).t + (st.samples.getD (i + 1) default).t) / 2 := by
      linarith
    have h2 : ((st.samples.getD i default).t + (st.samples.getD (i + 1) default).t) / 2
        < (st.samples.getD (i + 1) default).t := by
      linarith
    rw [ephPropagate_no_sgp4 st _ hne hs4 hby]
    rw [interpPart_between st.samples _ hsort hn i hi h1 h2]
    have key : ∀ ta tb : ℚ, ta < tb → ((ta + tb) / 2 - ta) / (tb - ta) = 1 / 2 := by
      intro ta tb h
      have hne0 : tb - ta ≠ 0 := sub_ne_zero.mpr (ne_of_gt h)
      field_simp
      ring
    rw [key _ _ hadj]
    simp only [toRenderState, lerpSampleAt, midSample, EciStateQ.mk.injEq, V3Q.mk.injEq]
    refine ⟨⟨?_, ?_, ?_⟩, ?_, ?_, ?_⟩ <;> ring

/-- Closed instance of `ephemeris_interpolation_and_clamping` on a two-sample
store at times 1 s and 11 s. -/
theorem ephemeris_interpolation_and_clamping_witness :
    ephPropagate twoSampleState (twoSampleState.samples.getD 0 default).t
      = toRenderState (twoSampleState.samples.getD 0 default) ∧
    ephPropagate twoSampleState 0 = toRenderState (twoSampleState.samples.getD 0 default) ∧
    ephPropagate twoSampleState 20
      = toRenderState (twoSampleState.samples.getD 1 default) ∧
    ephPropagate twoSampleState
        (((twoSampleState.samples.getD 0 default).t
          + (twoSampleState.samples.getD 1 default).t) / 2)
      = toRenderState (midSample (twoSampleState.samples.getD 0 default)
          (twoSampleState.samples.getD 1 default)) := by
  have hsort : strictlyTimeSorted twoSampleState.samples := by
    unfold strictlyTimeSorted twoSampleState
    decide
  have h0 := ephemeris_interpolation_and_clamping twoSampleState 0 rfl rfl (by decide) hsort
  have h20 := ephemeris_interpolation_and_clamping twoSampleState 20 rfl rfl (by decide) hsort
  refine ⟨h0.1 0 (by decide), h0.2.1 (by decide), ?_, ?_⟩
  · have := h20.2.2.1 (by decide)
    simpa using this
  · exact h20.2.2.2.2 0 (by decide)

/-! ### C10: empty retained sample set -/

/-- C10: when every input sample has the default zero timestamp (including
the empty-input case), the constructed propagator retains no samples;
`propagate` then returns the all-zero state for every time and
`tryGetOrbitalPeriodSeconds`, `isEpochStateSet`, `tryGetKeplerianElements`
all report unavailable. -/
theorem ephemeris_empty_unavailable
    (mkS : List Char × List Char → Option Sgp4Iface)
    (epochF : ℚ → ℕ × ℕ × ℚ)
    (sortF : List EphemerisSample → List EphemerisSample)
    (input : List EphemerisSample) (t : ℚ)
    (h0 : ∀ s ∈ input, s.t = 0)
    (hperm : ∀ l, (sortF l).Perm l) :
    ephPropagate (mkEphemeris mkS epochF sortF input) t = zeroEciStateQ ∧
    ephTryGetOrbitalPeriodSeconds (mkEphemeris mkS epochF sortF input) = none ∧
    ephIsEpochStateSet (mkEphemeris mkS epochF sortF input) = false ∧
    ephTryGetKeplerianElements (mkEphemeris mkS epochF sortF input) = none := by
  have hfil : input.filter (fun s => decide (s.t ≠ 0)) = [] := by
    rw [List.filter_eq_nil_iff]
    intro a ha
    simp [h0 a ha]
  have hret : sortF (input.filter (fun s => decide (s.t ≠ 0))) = [] := by
    rw [hfil]
    exact (hperm []).eq_nil
  have hmk : mkEphemeris mkS epochF sortF input
      = ⟨[], none, [], none⟩ := by
    unfold mkEphemeris
    rw [hret]
    simp
  rw [hmk]
  exact ⟨rfl, rfl, rfl, rfl⟩

/-- Closed instance of `ephemeris_empty_unavailable` on the empty input. -/
theorem ephemeris_empty_unavailable_witness :
    ephPropagate (mkEphemeris (fun _ => none) (fun _ => (0, 0, 0)) id []) 0
      = zeroEciStateQ ∧
    ephTryGetOrbitalPeriodSeconds (mkEphemeris (fun _ => none) (fun _ => (0, 0, 0)) id [])
      = none ∧
    ephIsEpochStateSet (mkEphemeris (fun _ => none) (fun _ => (0, 0, 0)) id []) = false ∧
    ephTryGetKeplerianElements (mkEphemeris (fun _ => none) (fun _ => (0, 0, 0)) id [])
      = none :=
  ephemeris_empty_unavailable (fun _ => none) (fun _ => (0, 0, 0)) id [] 0
    (by simp) (fun l => List.Perm.refl l)

/-! ### C1: propagate resolution order -/

theorem absTimeDiff_of_lt (l : List EphemerisSample) (t : ℚ) (j : ℕ)
    (h : (l.getD j default).t < t) :
    absTimeDiff l t j = t - (l.getD j default).t := by
  unfold absTimeDiff
  rw [abs_of_pos (by linarith)]

theorem absTimeDiff_of_ge (l : List EphemerisSample) (t : ℚ) (j : ℕ)
    (h : t ≤ (l.getD j default).t) :
    absTimeDiff l t j = (l.getD j default).t - t := by
  unfold absTimeDiff
  rw [abs_of_nonpos (by linarith), neg_sub]

theorem chooseNearestIdx_isNearest (l : List EphemerisSample) (t : ℚ)
    (hne : l ≠ []) (hs : strictlyTimeSorted l) :
    IsNearestIdx l t (chooseNearestIdx l t) := by
  have hlen : 0 < l.length := List.length_pos.mpr hne
  have hile : lowerBoundIdx l t ≤ l.length := lowerBoundIdx_le_length l t
  by_cases hi0 : lowerBoundIdx l t = 0
  · have hch : chooseNearestIdx l t = 0 := by
      unfold chooseNearestIdx
      rw [if_pos hi0]
    rw [hch]
    have ht0 : t ≤ (l.getD 0 default).t := by
      have h2 := lowerBoundIdx_ge l t (by omega)
      rwa [hi0] at h2
    refine ⟨hlen, ?_⟩
    intro j hj
    rcases Nat.eq_zero_or_pos j with h0 | hpos
    · subst h0
      exact Or.inr ⟨rfl, le_refl 0⟩
    · left
      have htj : (l.getD 0 default).t < (l.getD j default).t :=
        strictSorted_getD_lt l hs hpos hj
      rw [absTimeDiff_of_ge l t 0 ht0, absTimeDiff_of_ge l t j (le_trans ht0 htj.le)]
      linarith
  · by_cases hin : lowerBoundIdx l t = l.length
    · have hch : chooseNearestIdx l t = l.length - 1 := by
        unfold chooseNearestIdx
        rw [if_neg hi0, if_pos hin]
      rw [hch]
      refine ⟨by omega, ?_⟩
      intro j hj
      have htj : (l.getD j default).t < t := lowerBoundIdx_lt l t j (by omega)
      have htl : (l.getD (l.length - 1) default).t < t :=
        lowerBoundIdx_lt l t (l.length - 1) (by omega)
      rcases lt_or_ge j (l.length - 1) with hlt | hge
      · left
        have hjl := strictSorted_getD_lt l hs hlt (by omega)
        rw [absTimeDiff_of_lt l t _ htl, absTimeDiff_of_lt l t j htj]
        linarith
      · have hj1 : j = l.length - 1 := by omega
        rw [hj1]
        exact Or.inr ⟨rfl, le_refl _⟩
    · -- interior: 0 < lowerBoundIdx < length, bracketing pair comparison
      have hipos : 0 < lowerBoundIdx l t := Nat.pos_of_ne_zero hi0
      have hilt : lowerBoundIdx l t < l.length := lt_of_le_of_ne hile hin
      have hta : (l.getD (lowerBoundIdx l t - 1) default).t < t :=
        lowerBoundIdx_lt l t (lowerBoundIdx l t - 1) (by omega)
      have htb : t ≤ (l.getD (lowerBoundIdx l t) default).t := lowerBoundIdx_ge l t hilt
      have hdaif :
          (if (l.getD (lowerBoundIdx l t - 1) default).t ≤ t
            then t - (l.getD (lowerBoundIdx l t - 1) default).t
            else (l.getD (lowerBoundIdx l t - 1) default).t - t)
          = t - (l.getD (lowerBoundIdx l t - 1) default).t := if_pos hta.le
      have hdbif :
          (if (l.getD (lowerBoundIdx l t) default).t ≤ t
            then t - (l.getD (lowerBoundIdx l t) default).t
            else (l.getD (lowerBoundIdx l t) default).t - t)
          = (l.getD (lowerBoundIdx l t) default).t - t := by
        rcases eq_or_lt_of_le htb with he | hlt2
        · rw [if_pos (le_of_eq he.symm), ← he]
        · rw [if_neg (not_le.mpr hlt2)]
      have hda : absTimeDiff l t (lowerBoundIdx l t - 1)
          = t - (l.getD (lowerBoundIdx l t - 1) default).t :=
        absTimeDiff_of_lt l t _ hta
      have hdb : absTimeDiff l t (lowerBoundIdx l t)
          = (l.getD (lowerBoundIdx l t) default).t - t :=
        absTimeDiff_of_ge l t _ htb
      by_cases hcmp : t - (l.getD (lowerBoundIdx l t - 1) default).t
          ≤ (l.getD (lowerBoundIdx l t) default).t - t
      · have hch : chooseNearestIdx l t = lowerBoundIdx l t - 1 := by
          unfold chooseNearestIdx
          rw [if_neg hi0, if_neg hin, hdaif, hdbif, if_pos hcmp]
        rw [hch]
        refine ⟨by omega, ?_⟩
        intro j hj
        rcases lt_trichotomy j (lowerBoundIdx l t - 1) with hjlt | hjeq | hjgt
        · left
          have htj : (l.getD j default).t < t :=
            lowerBoundIdx_lt l t j (by omega)
          have hjj := strictSorted_getD_lt l hs hjlt (by omega)
          rw [hda, absTimeDiff_of_lt l t j htj]
          linarith
        · rw [hjeq]
          exact Or.inr ⟨rfl, le_refl _⟩
        · rcases eq_or_lt_of_le (Nat.succ_le_of_lt hjgt) with hjeq2 | hjgt2
          · -- j = lowerBoundIdx l t
            have hjeq3 : j = lowerBoundIdx l t := by omega
            rw [hjeq3, hda, hdb]
            rcases lt_or_eq_of_le hcmp with hstrict | heq
            · exact Or.inl hstrict
            · exact Or.inr ⟨heq, by omega⟩
          · -- j > lowerBoundIdx l t
            left
            have htj : t ≤ (l.getD j default).t :=
              le_trans htb (strictSorted_getD_le l hs (by omega) hj)
            have hjj := strictSorted_getD_lt l hs
              (show lowerBoundIdx l t < j by omega) hj
            rw [hda, absTimeDiff_of_ge l t j htj]
            linarith
      · have hch : chooseNearestIdx l t = lowerBoundIdx l t := by
          unfold chooseNearestIdx
          rw [if_neg hi0, if_neg hin, hdaif, hdbif, if_neg hcmp]
        rw [hch]
        refine ⟨hilt, ?_⟩
        intro j hj
        rcases lt_trichotomy j (lowerBoundIdx l t) with hjlt | hjeq | hjgt
        · left
          have htj : (l.getD j default).t < t := lowerBoundIdx_lt l t j hjlt
          have hjle : (l.getD j default).t ≤ (l.getD (lowerBoundIdx l t - 1) default).t :=
            strictSorted_getD_le l hs (by omega) (by omega)
          rw [hdb, absTimeDiff_of_lt l t j htj]
          push_neg at hcmp
          linarith
        · rw [hjeq]
          exact Or.inr ⟨rfl, le_refl _⟩
        · left
          have htj : t ≤ (l.getD j default).t :=
            le_trans htb (strictSorted_getD_le l hs (by omega) hj)
          have hjj := strictSorted_getD_lt l hs hjgt hj
          rw [hdb, absTimeDiff_of_ge l t j htj]
          linarith

theorem ephPropagate_bySample {elemsT : Type} (st : EphState elemsT) (t : ℚ)
    (h1 : st.samples ≠ []) (h2 : st.sgp4 = none) (h3 : st.sgp4BySample ≠ [])
    (h4 : st.sgp4BySample.length = st.samples.length) :
    ephPropagate st t =
      match st.sgp4BySample.getD (chooseNearestIdx st.samples t) none with
      | some p => p.propagateAt t
      | none => interpPart st.samples t := by
  have h5 : st.sgp4BySample.isEmpty = false := by
    cases hby2 : st.sgp4BySample with
    | nil => exact absurd hby2 h3
    | cons a tl => rfl
  have hcond : (!st.sgp4BySample.isEmpty
      && st.sgp4BySample.length == st.samples.length) = true := by
    simp [h5, h4]
  unfold ephPropagate
  rw [if_neg h1, h2]
  dsimp only []
  rw [if_pos hcond]

/-- C1: `EphemerisPropagator::propagate` resolves strategies in the fixed
priority order: (1) a single-sample synthesised SGP4 propagator is delegated
to unconditionally; (2) else an index-aligned per-sample SGP4 array selects
the nearest sample by absolute time difference (the `lower_bound` bracketing
choice with `<=` tie-break, which under distinct timestamps is the earliest
global minimiser) and delegates to that slot when it holds a propagator,
falling through to interpolation when the slot is empty; (3) else a single
sample's directly-converted state is returned. -/
theorem ephemeris_resolution_order
    (st : EphState OrbitalElements) (t : ℚ) (hne : st.samples ≠ []) :
    (∀ p, st.sgp4 = some p → ephPropagate st t = p.propagateAt t) ∧
    (st.sgp4 = none → st.sgp4BySample ≠ [] →
        st.sgp4BySample.length = st.samples.length →
        ((∀ p, st.sgp4BySample.getD (chooseNearestIdx st.samples t) none = some p →
              ephPropagate st t = p.propagateAt t) ∧
         (st.sgp4BySample.getD (chooseNearestIdx st.samples t) none = none →
              ephPropagate st t = interpPart st.samples t) ∧
         (strictlyTimeSorted st.samples →
              IsNearestIdx st.samples t (chooseNearestIdx st.samples t)))) ∧
    (st.sgp4 = none →
        ¬(st.sgp4BySample ≠ [] ∧ st.sgp4BySample.length = st.samples.length) →
        ∀ s, st.samples = [s] → ephPropagate st t = toRenderState s) := by
  refine ⟨?_, ?_, ?_⟩
  · intro p hp
    unfold ephPropagate
    rw [if_neg hne, hp]
  · intro h4 hbne hlen
    refine ⟨?_, ?_, fun hsort => chooseNearestIdx_isNearest st.samples t hne hsort⟩
    · intro p hp
      rw [ephPropagate_bySample st t hne h4 hbne hlen, hp]
    · intro hp
      rw [ephPropagate_bySample st t hne h4 hbne hlen, hp]
  · intro h4 hnact s hs
    have hcond : (!st.sgp4BySample.isEmpty
        && st.sgp4BySample.length == st.samples.length) = false := by
      by_cases he : st.sgp4BySample = []
      · simp [he]
      · have hlenne : st.sgp4BySample.length ≠ st.samples.length :=
          fun hl => hnact ⟨he, hl⟩
        simp [hlenne]
    unfold ephPropagate
    rw [if_neg hne, h4]
    dsimp only []
    rw [hcond, if_neg (by simp : ¬ (false = true))]
    rw [hs]
    unfold interpPart
    rw [if_pos (by simp : ([s] : List EphemerisSample).length = 1)]
    rfl

/-- Closed instance of `ephemeris_resolution_order` exercising all three
strategies on concrete states. -/
theorem ephemeris_resolution_order_witness :
    ephPropagate singleSgp4State 5 = ifaceW.propagateAt 5 ∧
    ephPropagate bySampleState 3 = ifaceW.propagateAt 3 ∧
    IsNearestIdx bySampleState.samples 3 (chooseNearestIdx bySampleState.samples 3) ∧
    ephPropagate singleSampleState 7 = toRenderState singleSampleW := by
  have hidx : chooseNearestIdx bySampleState.samples 3 = 0 := by
    have hlb2 : lowerBoundIdx bySampleState.samples 3 = 1 := by rfl
    unfold chooseNearestIdx
    rw [hlb2]
    norm_num [bySampleState]
  have h2 := (ephemeris_resolution_order bySampleState 3 (by decide)).2.1
    rfl (by simp [bySampleState]) rfl
  refine ⟨?_, ?_, ?_, ?_⟩
  · exact (ephemeris_resolution_order singleSgp4State 5 (by decide)).1 ifaceW rfl
  · exact h2.1 ifaceW (by rw [hidx]; rfl)
  · refine h2.2.2 ?_
    unfold strictlyTimeSorted bySampleState
    decide
  · exact (ephemeris_resolution_order singleSampleState 7 (by decide)).2.2
      rfl (fun h => h.1 rfl) singleSampleW rfl

/-! ### C6: periapsis/apoapsis radius bounds -/

theorem positionEci_norm_sq (el : OrbitalElements) (nu : ℝ) :
    (positionEciFromElements el nu).x * (positionEciFromElements el nu).x
    + (positionEciFromElements el nu).y * (positionEciFromElements el nu).y
    + (positionEciFromElements el nu).z * (positionEciFromElements el nu).z
    = (el.semiMajorAxis * (1 - el.eccentricity * el.eccentricity)
        / (1 + el.eccentricity * Real.cos nu))
      * (el.semiMajorAxis * (1 - el.eccentricity * el.eccentricity)
        / (1 + el.eccentricity * Real.cos nu)) := by
  unfold positionEciFromElements keplerAxisRemap
  dsimp only []
  set cO := Real.cos (degToRad el.raanDeg) with hcO
  set sO := Real.sin (degToRad el.raanDeg) with hsO
  set ci := Real.cos (degToRad el.inclinationDeg) with hci
  set si := Real.sin (degToRad el.inclinationDeg) with hsi
  set cw := Real.cos (degToRad el.argPeriapsisDeg) with hcw
  set sw := Real.sin (degToRad el.argPeriapsisDeg) with hsw
  set cn := Real.cos nu with hcn
  set sn := Real.sin nu with hsn
  set rr := el.semiMajorAxis * (1 - el.eccentricity * el.eccentricity)
    / (1 + el.eccentricity * cn) with hrr
  have hO : cO ^ 2 + sO ^ 2 = 1 := Real.cos_sq_add_sin_sq _
  have hi : ci ^ 2 + si ^ 2 = 1 := Real.cos_sq_add_sin_sq _
  have hw : cw ^ 2 + sw ^ 2 = 1 := Real.cos_sq_add_sin_sq _
  have hn : cn ^ 2 + sn ^ 2 = 1 := Real.cos_sq_add_sin_sq nu
  linear_combination
    ((rr * cn) ^ 2 * (cw ^ 2 + sw ^ 2 * ci ^ 2)
      + (rr * sn) ^ 2 * (sw ^ 2 + cw ^ 2 * ci ^ 2)
      + 2 * (rr * cn) * (rr * sn) * (cw * sw * ci ^ 2 - cw * sw)) * hO
    + ((rr * cn) ^ 2 * sw ^ 2 + (rr * sn) ^ 2 * cw ^ 2
      + 2 * (rr * cn) * (rr * sn) * cw * sw) * hi
    + ((rr * cn) ^ 2 + (rr * sn) ^ 2) * hw
    + rr ^ 2 * hn

theorem positionEci_norm_bounds (el : OrbitalElements) (nu : ℝ)
    (ha : 0 ≤ el.semiMajorAxis) (he0 : 0 ≤ el.eccentricity) (he1 : el.eccentricity < 1) :
    el.semiMajorAxis * (1 - el.eccentricity) ≤ vnorm (positionEciFromElements el nu) ∧
    vnorm (positionEciFromElements el nu)
      ≤ el.semiMajorAxis * (1 + el.eccentricity) := by
  set a := el.semiMajorAxis with hadef
  set e := el.eccentricity with hedef
  have hc1 : -1 ≤ Real.cos nu := Real.neg_one_le_cos nu
  have hc2 : Real.cos nu ≤ 1 := Real.cos_le_one nu
  have hden : 0 < 1 + e * Real.cos nu := by nlinarith
  have hr0 : 0 ≤ a * (1 - e * e) / (1 + e * Real.cos nu) := by
    apply div_nonneg _ hden.le
    exact mul_nonneg ha (by nlinarith)
  have hnorm : vnorm (positionEciFromElements el nu)
      = a * (1 - e * e) / (1 + e * Real.cos nu) := by
    unfold vnorm
    rw [positionEci_norm_sq el nu, Real.sqrt_mul_self hr0]
  rw [hnorm]
  constructor
  · rw [le_div_iff hden]
    nlinarith [mul_nonneg (mul_nonneg ha (by linarith : (0:ℝ) ≤ 1 - e))
      (mul_nonneg he0 (by linarith : (0:ℝ) ≤ 1 - Real.cos nu))]
  · rw [div_le_iff hden]
    nlinarith [mul_nonneg (mul_nonneg ha (by linarith : (0:ℝ) ≤ 1 + e))
      (mul_nonneg he0 (by linarith : (0:ℝ) ≤ 1 + Real.cos nu))]

/-- C6: for valid elements (nonnegative semi-major axis, eccentricity in
`[0, 1)`), every point returned by `sampleOrbitPolyline` has Euclidean
distance from the origin inside `[a(1-e), a(1+e)]` — proved exactly, which
subsumes the claim's 1e-6 relative tolerance. -/
theorem sampled_points_radius_bounds (el : OrbitalElements) (n : ℤ) (p : V3R)
    (ha : 0 ≤ el.semiMajorAxis) (he0 : 0 ≤ el.eccentricity) (he1 : el.eccentricity < 1)
    (hp : p ∈ samplePoints el n) :
    el.semiMajorAxis * (1 - el.eccentricity) ≤ vnorm p ∧
    vnorm p ≤ el.semiMajorAxis * (1 + el.eccentricity) := by
  unfold samplePoints at hp
  rcases List.mem_map.mp hp with ⟨s, _, rfl⟩
  unfold samplePoint
  exact positionEci_norm_bounds el _ ha he0 he1

/-- Closed instance of `sampled_points_radius_bounds` at the first sampled
point for a = 2, e = 1/2. -/
theorem sampled_points_radius_bounds_witness :
    elementsW.semiMajorAxis * (1 - elementsW.eccentricity)
      ≤ vnorm (samplePoint elementsW (segClamp 8) 0) ∧
    vnorm (samplePoint elementsW (segClamp 8) 0)
      ≤ elementsW.semiMajorAxis * (1 + elementsW.eccentricity) :=
  sampled_points_radius_bounds elementsW 8 (samplePoint elementsW (segClamp 8) 0)
    (by norm_num [elementsW]) (by norm_num [elementsW]) (by norm_num [elementsW])
    (by unfold samplePoints
        exact List.mem_map_of_mem _ (by simp))

/-! ### C5: polyline point count and closure -/

theorem rtrunc_add_one (z : ℝ) :
    rtrunc (z + 1) = rtrunc z + 1 ∨ rtrunc (z + 1) = rtrunc z := by
  unfold rtrunc
  by_cases h0 : 0 ≤ z
  · left
    rw [if_pos h0, if_pos (by linarith)]
    exact Int.floor_add_one z
  · push_neg at h0
    by_cases h1 : 0 ≤ z + 1
    · rw [if_pos h1, if_neg (not_le.mpr h0)]
      have hf := Int.floor_add_one z
      have h2 := Int.ceil_le_floor_add_one z
      have h3 := Int.floor_le_ceil z
      have h4 : ⌊z⌋ ≤ ⌈z⌉ ∧ ⌈z⌉ ≤ ⌊z⌋ + 1 := ⟨h3, h2⟩
      omega
    · rw [if_neg h1, if_neg (not_le.mpr h0)]
      left
      exact Int.ceil_add_one z

theorem rfmod_add_cases (x y : ℝ) (hy : y ≠ 0) :
    rfmod (x + y) y = rfmod x y ∨ rfmod (x + y) y = rfmod x y + y := by
  have hdiv : (x + y) / y = x / y + 1 := by field_simp
  rcases rtrunc_add_one (x / y) with h | h
  · left
    unfold rfmod
    rw [hdiv, h]
    push_cast
    ring
  · right
    unfold rfmod
    rw [hdiv, h]
    push_cast
    ring

theorem kepIterate_shift (e M : ℝ) (k : ℕ) :
    kepIterate e (M + twoPi) k = kepIterate e M k + twoPi := by
  induction k with
  | zero => rfl
  | succ k ih =>
    show (M + twoPi) + e * Real.sin (kepIterate e (M + twoPi) k)
        = (M + e * Real.sin (kepIterate e M k)) + twoPi
    rw [ih]
    unfold twoPi
    rw [Real.sin_add_two_pi]
    ring

theorem atan2_neg_neg_shift (y x : ℝ) :
    atan2 (-y) (-x) = atan2 y x + Real.pi ∨
    atan2 (-y) (-x) = atan2 y x - Real.pi ∨
    atan2 (-y) (-x) = atan2 y x := by
  unfold atan2
  rcases lt_trichotomy x 0 with hx | hx | hx
  · rw [if_pos (by linarith : (0:ℝ) < -x),
      if_neg (by linarith : ¬ (0:ℝ) < x), if_pos hx]
    have hq : -y / -x = y / x := neg_div_neg_eq y x
    by_cases hy : 0 ≤ y
    · rw [if_pos hy, hq]
      right; left; ring
    · rw [if_neg hy, hq]
      left; ring
  · subst hx
    rw [neg_zero]
    rw [if_neg (lt_irrefl (0:ℝ)), if_neg (lt_irrefl (0:ℝ)),
      if_neg (lt_irrefl (0:ℝ)), if_neg (lt_irrefl (0:ℝ))]
    rcases lt_trichotomy y 0 with hy | hy | hy
    · rw [if_pos (by linarith : (0:ℝ) < -y),
        if_neg (by linarith : ¬ (0:ℝ) < y), if_pos hy]
      left; ring
    · subst hy
      rw [neg_zero]
      right; right; rfl
    · rw [if_neg (by linarith : ¬ (0:ℝ) < -y), if_pos (by linarith : -y < 0),
        if_pos hy]
      right; left; ring
  · rw [if_neg (by linarith : ¬ (0:ℝ) < -x), if_pos (by linarith : -x < 0),
      if_pos hx]
    have hq : -y / -x = y / x := neg_div_neg_eq y x
    by_cases hy : 0 ≤ -y
    · rw [if_pos hy, hq]
      left; ring
    · rw [if_neg hy, hq]
      right; left; ring

theorem atan2_neg_neg_cos_sin (y x : ℝ) :
    Real.cos (2 * atan2 (-y) (-x)) = Real.cos (2 * atan2 y x) ∧
    Real.sin (2 * atan2 (-y) (-x)) = Real.sin (2 * atan2 y x) := by
  rcases atan2_neg_neg_shift y x with h | h | h <;> rw [h]
  · constructor
    · rw [show 2 * (atan2 y x + Real.pi) = 2 * atan2 y x + 2 * Real.pi by ring]
      exact Real.cos_add_two_pi _
    · rw [show 2 * (atan2 y x + Real.pi) = 2 * atan2 y x + 2 * Real.pi by ring]
      exact Real.sin_add_two_pi _
  · constructor
    · rw [show 2 * (atan2 y x - Real.pi) = 2 * atan2 y x - 2 * Real.pi by ring]
      exact Real.cos_sub_two_pi _
    · rw [show 2 * (atan2 y x - Real.pi) = 2 * atan2 y x - 2 * Real.pi by ring]
      exact Real.sin_sub_two_pi _
  · exact ⟨rfl, rfl⟩

theorem positionEci_congr_cos_sin (el : OrbitalElements) (nu1 nu2 : ℝ)
    (hc : Real.cos nu1 = Real.cos nu2) (hs : Real.sin nu1 = Real.sin nu2) :
    positionEciFromElements el nu1 = positionEciFromElements el nu2 := by
  unfold positionEciFromElements
  rw [hc, hs]

theorem samplePoint_closure (el : OrbitalElements) (seg : ℤ) (hseg : 0 < seg) :
    samplePoint el seg 0 = samplePoint el seg seg.toNat := by
  unfold samplePoint samplePointNu
  dsimp only []
  have hsegne : ((seg : ℝ)) ≠ 0 := by
    exact_mod_cast (ne_of_gt hseg)
  have h0 : el.meanAnomalyDeg * (twoPi / 360) + ((0 : ℕ) : ℝ) / (seg : ℝ) * twoPi
      = el.meanAnomalyDeg * (twoPi / 360) := by
    push_cast
    ring
  have h1 : el.meanAnomalyDeg * (twoPi / 360) + ((seg.toNat : ℕ) : ℝ) / (seg : ℝ) * twoPi
      = el.meanAnomalyDeg * (twoPi / 360) + twoPi := by
    have hcast : ((seg.toNat : ℕ) : ℝ) = (seg : ℝ) := by
      exact_mod_cast Int.toNat_of_nonneg hseg.le
    rw [hcast]
    field_simp
  rw [h0, h1]
  have htwoPine : twoPi ≠ 0 := by
    unfold twoPi
    positivity
  rcases rfmod_add_cases (el.meanAnomalyDeg * (twoPi / 360)) twoPi htwoPine with he | he
  · rw [he]
  · rw [he]
    rw [kepIterate_shift el.eccentricity _ 8]
    apply positionEci_congr_cos_sin
    · have hsin : Real.sin ((kepIterate el.eccentricity
          (rfmod (el.meanAnomalyDeg * (twoPi / 360)) twoPi) 8 + twoPi) / 2)
          = -Real.sin (kepIterate el.eccentricity
            (rfmod (el.meanAnomalyDeg * (twoPi / 360)) twoPi) 8 / 2) := by
        rw [show (kepIterate el.eccentricity
            (rfmod (el.meanAnomalyDeg * (twoPi / 360)) twoPi) 8 + twoPi) / 2
          = kepIterate el.eccentricity
              (rfmod (el.meanAnomalyDeg * (twoPi / 360)) twoPi) 8 / 2 + Real.pi by
            unfold twoPi; ring]
        exact Real.sin_add_pi _
      have hcos : Real.cos ((kepIterate el.eccentricity
          (rfmod (el.meanAnomalyDeg * (twoPi / 360)) twoPi) 8 + twoPi) / 2)
          = -Real.cos (kepIterate el.eccentricity
            (rfmod (el.meanAnomalyDeg * (twoPi / 360)) twoPi) 8 / 2) := by
        rw [show (kepIterate el.eccentricity
            (rfmod (el.meanAnomalyDeg * (twoPi / 360)) twoPi) 8 + twoPi) / 2
          = kepIterate el.eccentricity
              (rfmod (el.meanAnomalyDeg * (twoPi / 360)) twoPi) 8 / 2 + Real.pi by
            unfold twoPi; ring]
        exact Real.cos_add_pi _
      rw [hsin, hcos, mul_neg, mul_neg]
      exact ((atan2_neg_neg_cos_sin _ _).1).symm
    · have hsin : Real.sin ((kepIterate el.eccentricity
          (rfmod (el.meanAnomalyDeg * (twoPi / 360)) twoPi) 8 + twoPi) / 2)
          = -Real.sin (kepIterate el.eccentricity
            (rfmod (el.meanAnomalyDeg * (twoPi / 360)) twoPi) 8 / 2) := by
        rw [show (kepIterate el.eccentricity
            (rfmod (el.meanAnomalyDeg * (twoPi / 360)) twoPi) 8 + twoPi) / 2
          = kepIterate el.eccentricity
              (rfmod (el.meanAnomalyDeg * (twoPi / 360)) twoPi) 8 / 2 + Real.pi by
            unfold twoPi; ring]
        exact Real.sin_add_pi _
      have hcos : Real.cos ((kepIterate el.eccentricity
          (rfmod (el.meanAnomalyDeg * (twoPi / 360)) twoPi) 8 + twoPi) / 2)
          = -Real.cos (kepIterate el.eccentricity
            (rfmod (el.meanAnomalyDeg * (twoPi / 360)) twoPi) 8 / 2) := by
        rw [show (kepIterate el.eccentricity
            (rfmod (el.meanAnomalyDeg * (twoPi / 360)) twoPi) 8 + twoPi) / 2
          = kepIterate el.eccentricity
              (rfmod (el.meanAnomalyDeg * (twoPi / 360)) twoPi) 8 / 2 + Real.pi by
            unfold twoPi; ring]
        exact Real.cos_add_pi _
      rw [hsin, hcos, mul_neg, mul_neg]
      exact ((atan2_neg_neg_cos_sin _ _).2).symm

theorem foldr_xyz_length (pts : List V3R) :
    (pts.foldr (fun p acc => p.x :: p.y :: p.z :: acc) []).length = 3 * pts.length := by
  induction pts with
  | nil => rfl
  | cons p tl ih =>
    show (p.x :: p.y :: p.z :: tl.foldr (fun p acc => p.x :: p.y :: p.z :: acc) []).length
      = 3 * (tl.length + 1)
    simp only [List.length_cons, ih]
    omega

/-- C5: `sampleOrbitPolyline(elements, n)` emits exactly `n+1` points
(`3*(n+1)` float components) for `n >= 8`, exactly 9 points (27 components)
for `n < 8` (the clamp), and the first and last sampled points are equal —
exactly in the real model, which subsumes the floating-point tolerance. -/
theorem orbit_polyline_count_and_closure (el : OrbitalElements) (n : ℤ)
    (he0 : 0 ≤ el.eccentricity) (he9 : el.eccentricity ≤ 0.9) :
    (8 ≤ n → (sampleOrbitPolyline el n).length = 3 * (n.toNat + 1)) ∧
    (n < 8 → (sampleOrbitPolyline el n).length = 27) ∧
    (samplePoints el n).head? = (samplePoints el n).getLast? := by
  have hlen : (sampleOrbitPolyline el n).length = 3 * ((segClamp n).toNat + 1) := by
    unfold sampleOrbitPolyline
    rw [foldr_xyz_length]
    unfold samplePoints
    simp
  have hsegge : 8 ≤ segClamp n := by
    unfold segClamp
    split_ifs with h
    · omega
    · omega
  refine ⟨?_, ?_, ?_⟩
  · intro h8
    have hseg : segClamp n = n := by
      unfold segClamp
      rw [if_neg (by omega)]
    rw [hlen, hseg]
  · intro h8
    have hseg : segClamp n = 8 := by
      unfold segClamp
      rw [if_pos h8]
    rw [hlen, hseg]
    decide
  · unfold samplePoints
    have hhead : ((List.range ((segClamp n).toNat + 1)).map
        (samplePoint el (segClamp n))).head? = some (samplePoint el (segClamp n) 0) := by
      rw [List.range_succ_eq_map]
      rfl
    have hlast : ((List.range ((segClamp n).toNat + 1)).map
        (samplePoint el (segClamp n))).getLast?
        = some (samplePoint el (segClamp n) (segClamp n).toNat) := by
      rw [List.range_succ, List.map_append]
      exact List.getLast?_concat _
    rw [hhead, hlast, samplePoint_closure el (segClamp n) (by omega)]

/-- Closed instance of `orbit_polyline_count_and_closure` at a = 2, e = 1/2,
n = 8. -/
theorem orbit_polyline_count_and_closure_witness :
    (sampleOrbitPolyline elementsW 8).length = 27 ∧
    (samplePoints elementsW 8).head? = (samplePoints elementsW 8).getLast? := by
  have h := orbit_polyline_count_and_closure elementsW 8
    (by norm_num [elementsW]) (by norm_num [elementsW])
  refine ⟨?_, h.2.2⟩
  have h1 := h.1 (le_refl 8)
  simpa using h1

/-! ### C3: degenerate-input rejection -/

theorem rmag_rA : rmag rA = 251 * kEarthMuKm3PerS2 / 11250 := by
  unfold rmag rA
  dsimp only []
  rw [show 251 * kEarthMuKm3PerS2 / 11250 * (251 * kEarthMuKm3PerS2 / 11250)
      + 0 * 0 + 0 * 0 = (251 * kEarthMuKm3PerS2 / 11250) ^ 2 by ring]
  exact Real.sqrt_sq (by unfold kEarthMuKm3PerS2; norm_num)

theorem hmag_rA_vA : hmagOf rA vA = 3 * (251 * kEarthMuKm3PerS2 / 11250) := by
  unfold hmagOf hVecOf rA vA
  dsimp only []
  rw [show (0 * 0 - 0 * 3) * (0 * 0 - 0 * 3)
      + (0 * (8991 / 1004) - 251 * kEarthMuKm3PerS2 / 11250 * 0)
        * (0 * (8991 / 1004) - 251 * kEarthMuKm3PerS2 / 11250 * 0)
      + (251 * kEarthMuKm3PerS2 / 11250 * 3 - 0 * (8991 / 1004))
        * (251 * kEarthMuKm3PerS2 / 11250 * 3 - 0 * (8991 / 1004))
      = (3 * (251 * kEarthMuKm3PerS2 / 11250)) ^ 2 by ring]
  exact Real.sqrt_sq (by unfold kEarthMuKm3PerS2; norm_num)

theorem eVec_rA_vA : eVecOf rA vA = ⟨-(999 / 1250), -(2997 / 5000), 0⟩ := by
  unfold eVecOf hVecOf
  dsimp only []
  rw [rmag_rA]
  simp only [rA, vA]
  simp only [V3R.mk.injEq]
  unfold kEarthMuKm3PerS2
  refine ⟨by norm_num, by norm_num, by norm_num⟩

theorem eccOf_rA_vA : eccOf rA vA = 0.999 := by
  unfold eccOf
  dsimp only []
  rw [eVec_rA_vA]
  dsimp only []
  rw [show -(999 / 1250) * -(999 / 1250) + -(2997 / 5000) * -(2997 / 5000)
      + (0:ℝ) * 0 = (0.999 : ℝ) ^ 2 by norm_num]
  exact Real.sqrt_sq (by norm_num)

theorem aOf_rA_vA_bounds :
    kEarthRadiusKm < aOf rA vA ∧ aOf rA vA < 1000000 := by
  have ha : aOf rA vA = 1 / (2 / (251 * kEarthMuKm3PerS2 / 11250)
      - (8991 / 1004 * (8991 / 1004) + 3 * 3 + 0 * 0) / kEarthMuKm3PerS2) := by
    unfold aOf vsq
    rw [rmag_rA]
    simp only [vA]
  rw [ha]
  unfold kEarthMuKm3PerS2 kEarthRadiusKm
  norm_num

theorem extract_accepts_e999 : (extractOrbitalElements rA vA).isSome = true := by
  have h1 : rmag rA > kEarthRadiusKm ∧ rmag rA < 1000000 := by
    rw [rmag_rA]
    unfold kEarthMuKm3PerS2 kEarthRadiusKm
    norm_num
  have h2 : hmagOf rA vA > 0 := by
    rw [hmag_rA_vA]
    unfold kEarthMuKm3PerS2
    norm_num
  have h3 : 0 ≤ eccOf rA vA ∧ eccOf rA vA ≤ 0.999 := by
    rw [eccOf_rA_vA]
    norm_num
  have h4 : aOf rA vA > kEarthRadiusKm ∧ aOf rA vA < 1000000 := aOf_rA_vA_bounds
  unfold extractOrbitalElements
  rw [if_neg (not_not_intro h1), if_neg (not_not_intro h2),
    if_neg (not_not_intro h3), if_neg (not_not_intro h4)]
  rfl

theorem rmag_rB : rmag rB = 1000 := by
  unfold rmag rB
  dsimp only []
  rw [show (1000 : ℝ) * 1000 + 0 * 0 + 0 * 0 = (1000 : ℝ) ^ 2 by ring]
  exact Real.sqrt_sq (by norm_num)

theorem hmag_rB_vB : hmagOf rB vB = 20000 := by
  unfold hmagOf hVecOf rB vB
  dsimp only []
  rw [show (0 * 0 - 0 * 20) * (0 * 0 - 0 * 20)
      + (0 * 0 - (1000:ℝ) * 0) * (0 * 0 - (1000:ℝ) * 0)
      + ((1000:ℝ) * 20 - 0 * 0) * ((1000:ℝ) * 20 - 0 * 0)
      = (20000 : ℝ) ^ 2 by ring]
  exact Real.sqrt_sq (by norm_num)

theorem eccOf_rB_vB : eccOf rB vB = 400000 / kEarthMuKm3PerS2 - 1 := by
  have hev : eVecOf rB vB = ⟨400000 / kEarthMuKm3PerS2 - 1, 0, 0⟩ := by
    unfold eVecOf hVecOf
    dsimp only []
    rw [rmag_rB]
    simp only [rB, vB]
    simp only [V3R.mk.injEq]
    unfold kEarthMuKm3PerS2
    refine ⟨by norm_num, by norm_num, by norm_num⟩
  unfold eccOf
  dsimp only []
  rw [hev]
  dsimp only []
  rw [show (400000 / kEarthMuKm3PerS2 - 1) * (400000 / kEarthMuKm3PerS2 - 1)
      + (0:ℝ) * 0 + (0:ℝ) * 0 = (400000 / kEarthMuKm3PerS2 - 1) ^ 2 by ring]
  exact Real.sqrt_sq (by unfold kEarthMuKm3PerS2; norm_num)

theorem aOf_rB_vB_pos : 0 < aOf rB vB := by
  have ha : aOf rB vB = 1 / (2 / 1000 - (0 * 0 + 20 * 20 + 0 * 0) / kEarthMuKm3PerS2) := by
    unfold aOf vsq
    rw [rmag_rB]
    simp only [vB]
  rw [ha]
  unfold kEarthMuKm3PerS2
  norm_num

theorem meanMotion_rB_vB_pos : 0 < meanMotionRevPerDayOf rB vB := by
  unfold meanMotionRevPerDayOf
  have hmu : (0:ℝ) < kEarthMuKm3PerS2 := by unfold kEarthMuKm3PerS2; norm_num
  have ha := aOf_rB_vB_pos
  have hsq : 0 < Real.sqrt (kEarthMuKm3PerS2 / (aOf rB vB * aOf rB vB * aOf rB vB)) :=
    Real.sqrt_pos.mpr (div_pos hmu (by positivity))
  have htp : (0:ℝ) < twoPi := by unfold twoPi; positivity
  positivity

theorem epoch_26100 : tleEpochFromFields 26 100 0 = some ("26100.00000000".toList) := by
  unfold tleEpochFromFields
  rw [if_pos (by norm_num : (0:ℚ) ≤ 0 ∧ (0:ℚ) < 1)]
  have hfloor : (⌊(0:ℚ) * 100000000 + 1/2⌋ : ℤ) = 0 := by
    norm_num
  rw [hfloor]
  decide

theorem build_accepts_low_radius :
    (buildSyntheticTleFromEciState (26, 100, 0) rB vB).isSome = true := by
  have h1 : rmag rB > 0 := by rw [rmag_rB]; norm_num
  have h2 : hmagOf rB vB > 0 := by rw [hmag_rB_vB]; norm_num
  have h3 : 0 ≤ eccOf rB vB ∧ eccOf rB vB < 0.999 := by
    rw [eccOf_rB_vB]
    unfold kEarthMuKm3PerS2
    norm_num
  have h4 : aOf rB vB > 0 := aOf_rB_vB_pos
  have h5 : meanMotionRevPerDayOf rB vB > 0 := meanMotion_rB_vB_pos
  unfold buildSyntheticTleFromEciState
  rw [if_neg (not_not_intro h1), if_neg (not_not_intro h2),
    if_neg (not_not_intro h3), if_neg (not_not_intro h4),
    if_neg (not_not_intro h5)]
  rw [show ((26, 100, (0:ℚ)) : ℕ × ℕ × ℚ).1 = 26 from rfl,
    show ((26, 100, (0:ℚ)) : ℕ × ℕ × ℚ).2.1 = 100 from rfl,
    show ((26, 100, (0:ℚ)) : ℕ × ℕ × ℚ).2.2 = 0 from rfl,
    epoch_26100]
  dsimp only []
  rw [if_pos ⟨finalizeTleLine_length _, finalizeTleLine_length _⟩]
  rfl

/-- C3 counterexample: the claim fails in both directions.  At the concrete
state `(rA, vA)` the derived eccentricity is exactly 0.999 (at least 0.999)
yet `extractOrbitalElements` succeeds (its guard rejects only `e > 0.999`);
at the concrete state `(rB, vB)` the position magnitude 1000 km is below
Earth's radius yet `buildSyntheticTleFromEciState` succeeds (its guard
requires only `|r| > 0`). -/
theorem degenerate_input_rejection_counterexample :
    (eccOf rA vA = 0.999 ∧ (extractOrbitalElements rA vA).isSome = true) ∧
    (rmag rB < kEarthRadiusKm ∧
      (buildSyntheticTleFromEciState (26, 100, 0) rB vB).isSome = true) := by
  refine ⟨⟨eccOf_rA_vA, extract_accepts_e999⟩, ⟨?_, build_accepts_low_radius⟩⟩
  rw [rmag_rB]
  unfold kEarthRadiusKm
  norm_num

/-- C3 (amended): a position magnitude below Earth's radius makes
`extractOrbitalElements` fail; a derived eccentricity strictly above 0.999
makes `extractOrbitalElements` fail; and a derived eccentricity of at least
0.999 makes `buildSyntheticTleFromEciState` fail.  (The builder does not
enforce the Earth-radius lower bound, only `|r| > 0`, and the extractor's
eccentricity ceiling is inclusive.) -/
theorem degenerate_input_rejection
    (r v : V3R) (epoch : ℕ × ℕ × ℚ) :
    (rmag r < kEarthRadiusKm → extractOrbitalElements r v = none) ∧
    (0.999 < eccOf r v → extractOrbitalElements r v = none) ∧
    (0.999 ≤ eccOf r v → buildSyntheticTleFromEciState epoch r v = none) := by
  refine ⟨?_, ?_, ?_⟩
  · intro h
    unfold extractOrbitalElements
    rw [if_pos (fun hc => lt_asymm h hc.1)]
  · intro h
    unfold extractOrbitalElements
    split_ifs with h1 h2 h3 h4 <;>
      first
        | rfl
        | exact absurd h3.2 (not_le.mpr h)
  · intro h
    unfold buildSyntheticTleFromEciState
    split_ifs with h1 h2 h3 h4 h5 <;>
      first
        | rfl
        | exact absurd h3.2 (not_lt.mpr h)

/-- Closed instance of `degenerate_input_rejection`: a 100 km position is
rejected by the extractor, and the exactly-0.999-eccentricity state is
rejected by the TLE builder. -/
theorem degenerate_input_rejection_witness :
    extractOrbitalElements ⟨100, 0, 0⟩ ⟨0, 1, 0⟩ = none ∧
    buildSyntheticTleFromEciState (26, 100, 0) rA vA = none := by
  constructor
  · apply (degenerate_input_rejection ⟨100, 0, 0⟩ ⟨0, 1, 0⟩ (26, 100, 0)).1
    have h : rmag ⟨100, 0, 0⟩ = 100 := by
      unfold rmag
      dsimp only []
      rw [show (100:ℝ) * 100 + 0 * 0 + 0 * 0 = (100:ℝ) ^ 2 by ring]
      exact Real.sqrt_sq (by norm_num)
    rw [h]
    unfold kEarthRadiusKm
    norm_num
  · apply (degenerate_input_rejection rA vA (26, 100, 0)).2.2
    rw [eccOf_rA_vA]

end OrbitMapper
